import Mathlib

/-!
# Basic diagnosis plugin: file-attribute check and repair

A shallow embedding of `src/win32/diagnosebasic_win32.cpp` and
`src/linux/diagnosebasic_linux.cpp`.

* Attribute bitmasks (`DWORD`) are natural numbers; the only place where the
  32-bit width matters is the complement `~(...)` in `checkFileAttributes`,
  which is taken inside 32 bits (`dwordNot`).
* The operating system is not part of the repository.  The functions are
  therefore written against an interface (`Win32.OS`, `Linux.OS`) whose
  operations transform an explicit world state and return what the real call
  returns.  Every theorem quantified over `os` holds for every behaviour of the
  operating system.
* Each function records the calls it issues in a trace of `Event`s (ghost
  state: the source has no such list).  An event carries the program point
  (`Site`) of the call, the arguments that matter and the result.
* Log output (`qDebug`, `qWarning`) is not modelled.
-/

namespace Win32

/-! ## Constants of the platform headers (`winnt.h`, `fileapi.h`) -/

def FILE_ATTRIBUTE_READONLY : Nat := 0x1
def FILE_ATTRIBUTE_HIDDEN : Nat := 0x2
def FILE_ATTRIBUTE_SYSTEM : Nat := 0x4
def FILE_ATTRIBUTE_DIRECTORY : Nat := 0x10
def FILE_ATTRIBUTE_ARCHIVE : Nat := 0x20
def FILE_ATTRIBUTE_NORMAL : Nat := 0x80
def FILE_ATTRIBUTE_TEMPORARY : Nat := 0x100
def FILE_ATTRIBUTE_SPARSE_FILE : Nat := 0x200
def FILE_ATTRIBUTE_REPARSE_POINT : Nat := 0x400
def FILE_ATTRIBUTE_COMPRESSED : Nat := 0x800
def FILE_ATTRIBUTE_OFFLINE : Nat := 0x1000
def FILE_ATTRIBUTE_NOT_CONTENT_INDEXED : Nat := 0x2000
def FILE_ATTRIBUTE_ENCRYPTED : Nat := 0x4000
def FILE_ATTRIBUTE_INTEGRITY_STREAM : Nat := 0x8000
def FILE_ATTRIBUTE_NO_SCRUB_DATA : Nat := 0x20000
def FILE_ATTRIBUTE_PINNED : Nat := 0x80000
def FILE_ATTRIBUTE_UNPINNED : Nat := 0x100000

/-- The value `GetFileAttributes` returns when it fails: `(DWORD)-1`. -/
def INVALID_FILE_ATTRIBUTES : Nat := 0xFFFFFFFF

/-- The C operator `~` on a `DWORD`: complement inside 32 bits. -/
def dwordNot (x : Nat) : Nat := 0xFFFFFFFF ^^^ (x % 2 ^ 32)

/-- The C truth value of `attrs & flag`. -/
def hasFlag (attrs flag : Nat) : Bool := attrs &&& flag != 0

/-! ## The operating system as seen by the two functions -/

/-- Control codes passed to `DeviceIoControl`, with the input buffer the source
passes: `FSCTL_SET_COMPRESSION` with `COMPRESSION_FORMAT_NONE`, and
`FSCTL_SET_SPARSE` with `FILE_SET_SPARSE_BUFFER {FALSE}`. -/
inductive Fsctl where
  | FSCTL_SET_COMPRESSION
  | FSCTL_SET_SPARSE
  deriving DecidableEq

/-- The Win32 calls used by the source, all for the one path the function was
called with.  `createFile` yields `none` for `INVALID_HANDLE_VALUE`. -/
structure OS (σ : Type) where
  getFileAttributes : σ → Nat × σ
  setFileAttributes : Nat → σ → Bool × σ
  createFile : σ → Option Nat × σ
  deviceIoControl : Nat → Fsctl → σ → Bool × σ
  closeHandle : Nat → σ → σ

/-- Program points of `fixFileAttributes` (and `check` for the single call of
`checkFileAttributes`). -/
inductive Site where
  | check
  | entry
  | clearAll
  | compression
  | sparse
  | lastDitch
  deriving DecidableEq

/-- One call to the operating system, with its result. -/
inductive Event where
  | getFileAttributes (site : Site) (result : Nat)
  | setFileAttributes (site : Site) (value : Nat) (ok : Bool)
  | createFile (site : Site) (handle : Option Nat)
  | deviceIoControl (site : Site) (handle : Nat) (code : Fsctl) (ok : Bool)
  | closeHandle (site : Site) (handle : Nat)
  deriving DecidableEq

/-- The state threaded through a function body: the world, the calls issued so
far, and the local variable `success` of `fixFileAttributes`. -/
structure Frame (σ : Type) where
  world : σ
  trace : List Event
  success : Bool

/-! ## `checkFileAttributes` (lines 49-90) -/

/-- The condition of the inner `if` (lines 57-58). -/
def abnormal (attrs : Nat) : Bool :=
  !hasFlag attrs FILE_ATTRIBUTE_ARCHIVE && !hasFlag attrs FILE_ATTRIBUTE_NORMAL &&
    hasFlag attrs (dwordNot (FILE_ATTRIBUTE_DIRECTORY ||| FILE_ATTRIBUTE_ARCHIVE))

/-- The function `checkFileAttributes`; `success` of the frame is the returned
value. -/
def checkFileAttributes {σ : Type} (os : OS σ) (w : σ) : Frame σ :=
  let r := os.getFileAttributes w
  let attrs := r.1
  let tr := [Event.getFileAttributes Site.check attrs]
  if attrs ≠ INVALID_FILE_ATTRIBUTES then
    if abnormal attrs then
      { world := r.2, trace := tr, success := true }
    else
      { world := r.2, trace := tr, success := false }
  else
    { world := r.2, trace := tr, success := false }

/-! ## `fixFileAttributes` (lines 92-195) -/

/-- Lines 103-110: `SetFileAttributes` with `ARCHIVE` alone when it was set at
entry and with `0` otherwise; a failure clears `success`. -/
def clearAll {σ : Type} (os : OS σ) (attrs : Nat) (f : Frame σ) : Frame σ :=
  let value := if hasFlag attrs FILE_ATTRIBUTE_ARCHIVE then FILE_ATTRIBUTE_ARCHIVE else 0
  let r := os.setFileAttributes value f.world
  { world := r.2
    trace := f.trace ++ [Event.setFileAttributes Site.clearAll value r.1]
    success := if r.1 then f.success else false }

/-- The body shared by lines 114-136 and lines 141-162: `CreateFile`, then on a
valid handle `DeviceIoControl` and `CloseHandle`; a failed open or a failed
control request clears `success`. -/
def deviceControl {σ : Type} (os : OS σ) (site : Site) (code : Fsctl) (f : Frame σ) :
    Frame σ :=
  let o := os.createFile f.world
  match o.1 with
  | some hndl =>
    let c := os.deviceIoControl hndl code o.2
    { world := os.closeHandle hndl c.2
      trace := f.trace ++ [Event.createFile site (some hndl),
        Event.deviceIoControl site hndl code c.1, Event.closeHandle site hndl]
      success := if c.1 then f.success else false }
  | none =>
    { world := o.2
      trace := f.trace ++ [Event.createFile site none]
      success := false }

/-- Lines 113-137: "Compression requires DeviceIoControl". -/
def disableCompression {σ : Type} (os : OS σ) (attrs : Nat) (f : Frame σ) : Frame σ :=
  if hasFlag attrs FILE_ATTRIBUTE_COMPRESSED then
    deviceControl os Site.compression Fsctl.FSCTL_SET_COMPRESSION f
  else f

/-- Lines 140-163: "Sparseness requires DeviceIoControl". -/
def disableSparseness {σ : Type} (os : OS σ) (attrs : Nat) (f : Frame σ) : Frame σ :=
  if hasFlag attrs FILE_ATTRIBUTE_SPARSE_FILE then
    deviceControl os Site.sparse Fsctl.FSCTL_SET_SPARSE f
  else f

/-- Lines 166-185: "As a last ditch effort, set the archive flag". -/
def lastDitch {σ : Type} (os : OS σ) (f : Frame σ) : Frame σ :=
  if !f.success then
    let r := os.getFileAttributes f.world
    let attrs := r.1
    let tr := f.trace ++ [Event.getFileAttributes Site.lastDitch attrs]
    if attrs ≠ INVALID_FILE_ATTRIBUTES then
      let s := os.setFileAttributes (attrs ||| FILE_ATTRIBUTE_ARCHIVE) r.2
      { world := s.2
        trace := tr ++ [Event.setFileAttributes Site.lastDitch
          (attrs ||| FILE_ATTRIBUTE_ARCHIVE) s.1]
        success := if s.1 then true else f.success }
    else
      { world := r.2, trace := tr, success := f.success }
  else f

/-- The function `fixFileAttributes`; `success` of the frame is the returned
value. -/
def fixFileAttributes {σ : Type} (os : OS σ) (w : σ) : Frame σ :=
  let r := os.getFileAttributes w
  let attrs := r.1
  let f : Frame σ :=
    { world := r.2, trace := [Event.getFileAttributes Site.entry attrs], success := true }
  if attrs ≠ INVALID_FILE_ATTRIBUTES then
    lastDitch os (disableSparseness os attrs (disableCompression os attrs (clearAll os attrs f)))
  else
    { f with success := false }

/-! ## Reading the trace -/

/-- Every bit of `a` is a bit of `b`: the flags of `a` are among those of `b`. -/
def Within (a b : Nat) : Prop := ∀ i, a.testBit i = true → b.testBit i = true

/-- The program point an event was issued at. -/
def Event.site : Event → Site
  | Event.getFileAttributes s _ => s
  | Event.setFileAttributes s _ _ => s
  | Event.createFile s _ => s
  | Event.deviceIoControl s _ _ _ => s
  | Event.closeHandle s _ => s

/-- The call failed, as the source tests it. -/
def Event.failed : Event → Bool
  | Event.getFileAttributes _ r => r == INVALID_FILE_ATTRIBUTES
  | Event.setFileAttributes _ _ ok => !ok
  | Event.createFile _ h => h.isNone
  | Event.deviceIoControl _ _ _ ok => !ok
  | Event.closeHandle _ _ => false

/-- Steps 1-3 are the program points between the entry read and the fallback. -/
def Site.isStep : Site → Bool
  | Site.clearAll => true
  | Site.compression => true
  | Site.sparse => true
  | _ => false

/-- At least one call of steps 1-3 failed. -/
def stepFailed (tr : List Event) : Bool := tr.any fun e => e.site.isStep && e.failed

/-- Every step that had to be attempted for the entry bitmask `attrs` was
attempted and succeeded: step 1, the open and the compression request when
`COMPRESSED` was set, the open and the sparse request when `SPARSE_FILE` was
set. -/
def AllStepsOk (attrs : Nat) (tr : List Event) : Prop :=
  (∃ v, Event.setFileAttributes Site.clearAll v true ∈ tr) ∧
  (hasFlag attrs FILE_ATTRIBUTE_COMPRESSED = true → ∃ h,
    Event.createFile Site.compression (some h) ∈ tr ∧
    Event.deviceIoControl Site.compression h Fsctl.FSCTL_SET_COMPRESSION true ∈ tr) ∧
  (hasFlag attrs FILE_ATTRIBUTE_SPARSE_FILE = true → ∃ h,
    Event.createFile Site.sparse (some h) ∈ tr ∧
    Event.deviceIoControl Site.sparse h Fsctl.FSCTL_SET_SPARSE true ∈ tr)

/-- The fallback ran: the attributes were read a second time. -/
def FallbackRan (tr : List Event) : Prop :=
  ∃ r, Event.getFileAttributes Site.lastDitch r ∈ tr

/-- The fallback succeeded: the second read succeeded and the write of what it
read, with `ARCHIVE` forced on, succeeded. -/
def FallbackSucceeded (tr : List Event) : Prop :=
  ∃ r, Event.getFileAttributes Site.lastDitch r ∈ tr ∧ r ≠ INVALID_FILE_ATTRIBUTES ∧
    Event.setFileAttributes Site.lastDitch (r ||| FILE_ATTRIBUTE_ARCHIVE) true ∈ tr

def Event.isGetFileAttributes : Event → Bool
  | Event.getFileAttributes _ _ => true
  | _ => false

def Event.isSetFileAttributes : Event → Bool
  | Event.setFileAttributes _ _ _ => true
  | _ => false

def Event.isCreateFile : Event → Bool
  | Event.createFile _ _ => true
  | _ => false

def Event.isOpened : Event → Bool
  | Event.createFile _ (some _) => true
  | _ => false

def Event.isCloseHandle : Event → Bool
  | Event.closeHandle _ _ => true
  | _ => false

/-- The handle discipline, checked along a trace; `held` is the handle that is
open at this point.  A successful open needs no handle to be open (no
nesting), a control request and a close need their handle to be the open one
(so a failed open is never closed, and nothing is closed twice), and at the end
nothing is open. -/
def handlesOk : Option Nat → List Event → Bool
  | held, [] => held.isNone
  | held, Event.createFile _ (some h) :: es => held.isNone && handlesOk (some h) es
  | held, Event.deviceIoControl _ h _ _ :: es => (held == some h) && handlesOk held es
  | held, Event.closeHandle _ h :: es => (held == some h) && handlesOk none es
  | held, _ :: es => handlesOk held es

/-! ## Summary of one run

What the operating system answered during one call of `fixFileAttributes` on a
readable path, and the trace and returned value that follow from the answers.
Used to reason about all behaviours of the operating system at once. -/

/-- The answers during step 2 or step 3. -/
inductive StepRun where
  | skipped
  | openFailed
  | controlled (handle : Nat) (ok : Bool)
  deriving DecidableEq

/-- The answers during the fallback. -/
inductive FallbackRun where
  | notRun
  | unreadable
  | wrote (reread : Nat) (ok : Bool)
  deriving DecidableEq

/-- The answers of one call. -/
structure Run where
  attrs : Nat
  ok1 : Bool
  compression : StepRun
  sparse : StepRun
  fallback : FallbackRun
  deriving DecidableEq

def StepRun.ok : StepRun → Bool
  | StepRun.skipped => true
  | StepRun.openFailed => false
  | StepRun.controlled _ ok => ok

def StepRun.events (site : Site) (code : Fsctl) : StepRun → List Event
  | StepRun.skipped => []
  | StepRun.openFailed => [Event.createFile site none]
  | StepRun.controlled h ok =>
    [Event.createFile site (some h), Event.deviceIoControl site h code ok,
      Event.closeHandle site h]

def FallbackRun.events : FallbackRun → List Event
  | FallbackRun.notRun => []
  | FallbackRun.unreadable => [Event.getFileAttributes Site.lastDitch INVALID_FILE_ATTRIBUTES]
  | FallbackRun.wrote r ok =>
    [Event.getFileAttributes Site.lastDitch r,
      Event.setFileAttributes Site.lastDitch (r ||| FILE_ATTRIBUTE_ARCHIVE) ok]

def Run.stepsOk (r : Run) : Bool := r.ok1 && r.compression.ok && r.sparse.ok

def Run.events (r : Run) : List Event :=
  [Event.getFileAttributes Site.entry r.attrs,
    Event.setFileAttributes Site.clearAll
      (if hasFlag r.attrs FILE_ATTRIBUTE_ARCHIVE then FILE_ATTRIBUTE_ARCHIVE else 0) r.ok1] ++
    r.compression.events Site.compression Fsctl.FSCTL_SET_COMPRESSION ++
    r.sparse.events Site.sparse Fsctl.FSCTL_SET_SPARSE ++ r.fallback.events

def Run.success (r : Run) : Bool :=
  match r.fallback with
  | FallbackRun.notRun => r.stepsOk
  | FallbackRun.unreadable => false
  | FallbackRun.wrote _ ok => ok

/-- The answers fit the control flow: a step is skipped exactly when its flag
was clear at entry, the fallback is skipped exactly when no step failed, and a
bitmask that was written back had been read. -/
def Run.Consistent (r : Run) : Prop :=
  r.attrs ≠ INVALID_FILE_ATTRIBUTES ∧
  (r.compression = StepRun.skipped ↔ hasFlag r.attrs FILE_ATTRIBUTE_COMPRESSED = false) ∧
  (r.sparse = StepRun.skipped ↔ hasFlag r.attrs FILE_ATTRIBUTE_SPARSE_FILE = false) ∧
  (r.fallback = FallbackRun.notRun ↔ r.stepsOk = true) ∧
  (∀ x ok, r.fallback = FallbackRun.wrote x ok → x ≠ INVALID_FILE_ATTRIBUTES)

/-! ## A model of the file behind the path

The repository does not contain the operating system.  To speak about "the
attribute bitmask read afterwards" the file is modelled by its bitmask, and the
calls act on it as the source expects them to (comments at lines 102, 112 and
139): `SetFileAttributes` rewrites the bits it is able to change and leaves the
others, the two control requests clear `COMPRESSED` and `SPARSE_FILE`, and a
call that fails changes nothing.  Which calls fail is free (`fate`), and so is
the set of bits `SetFileAttributes` is able to change (`settable`). -/

/-- The kinds of call that may fail. -/
inductive Syscall where
  | getFileAttributes
  | setFileAttributes
  | createFile
  | setCompression
  | setSparse
  deriving DecidableEq

/-- What is not under the control of the program: the bits `SetFileAttributes`
is able to change, and whether the call of a given kind issued as the `n`-th
call succeeds. -/
structure Platform where
  settable : Nat
  fate : Nat → Syscall → Bool

/-- The file: its attribute bitmask, and the number of calls issued so far. -/
structure File where
  attrs : Nat
  clock : Nat
  deriving DecidableEq

/-- The bitmask `a` with the bits of `flags` cleared. -/
def without (a flags : Nat) : Nat := a ^^^ (a &&& flags)

/-- The clock advances with every call. -/
def File.tick (w : File) : File := { w with clock := w.clock + 1 }

/-- The bits a successful `SetFileAttributes(value)` leaves in the bitmask. -/
def written (p : Platform) (a value : Nat) : Nat :=
  without a p.settable ||| (value &&& p.settable)

/-- The flag a control request clears. -/
def Fsctl.flag : Fsctl → Nat
  | Fsctl.FSCTL_SET_COMPRESSION => FILE_ATTRIBUTE_COMPRESSED
  | Fsctl.FSCTL_SET_SPARSE => FILE_ATTRIBUTE_SPARSE_FILE

/-- The kind of call a control request is. -/
def Fsctl.kind : Fsctl → Syscall
  | Fsctl.FSCTL_SET_COMPRESSION => Syscall.setCompression
  | Fsctl.FSCTL_SET_SPARSE => Syscall.setSparse

/-- The calls acting on the modelled file. -/
def model (p : Platform) : OS File where
  getFileAttributes w :=
    (if p.fate w.clock Syscall.getFileAttributes then w.attrs else INVALID_FILE_ATTRIBUTES,
      w.tick)
  setFileAttributes value w :=
    if p.fate w.clock Syscall.setFileAttributes then
      (true, { attrs := written p w.attrs value, clock := w.clock + 1 })
    else (false, w.tick)
  createFile w :=
    (if p.fate w.clock Syscall.createFile then some w.clock else none, w.tick)
  deviceIoControl _ code w :=
    if p.fate w.clock code.kind then
      (true, { attrs := without w.attrs code.flag, clock := w.clock + 1 })
    else (false, w.tick)
  closeHandle _ w := w.tick

/-- The bitmask of the modelled file after a call of `fixFileAttributes` that
read `a` at entry, given which parts succeeded: step 1 (`ok1`), the open and
the request of step 2 (`okC`) and of step 3 (`okS`), and the read and the write
of the fallback (`okF`). -/
def repaired (p : Platform) (a : Nat) (ok1 okC okS okF : Bool) : Nat :=
  let a1 := if ok1 then
    written p a (if hasFlag a FILE_ATTRIBUTE_ARCHIVE then FILE_ATTRIBUTE_ARCHIVE else 0) else a
  let a2 := if hasFlag a FILE_ATTRIBUTE_COMPRESSED && okC then
    without a1 FILE_ATTRIBUTE_COMPRESSED else a1
  let a3 := if hasFlag a FILE_ATTRIBUTE_SPARSE_FILE && okS then
    without a2 FILE_ATTRIBUTE_SPARSE_FILE else a2
  if okF then written p a3 (a3 ||| FILE_ATTRIBUTE_ARCHIVE) else a3

/-- The fallback wrote. -/
def FallbackRun.wroteOk : FallbackRun → Bool
  | FallbackRun.wrote _ ok => ok
  | _ => false

/-- The bitmask of the modelled file after a run with the given answers. -/
def Run.finalAttrs (p : Platform) (r : Run) : Nat :=
  repaired p r.attrs r.ok1 r.compression.ok r.sparse.ok r.fallback.wroteOk

/-- An open or a control request of step 2 or step 3 failed. -/
def requestFailed (tr : List Event) : Bool :=
  tr.any fun e => (e.site == Site.compression || e.site == Site.sparse) && e.failed

/-- What a call of `fixFileAttributes` makes of the bitmask `a` on a platform
where the outcome of a call depends on its kind only. -/
def steadyFix (p : Platform) (a : Nat) : Nat :=
  let g := p.fate 0 Syscall.getFileAttributes
  let s := p.fate 0 Syscall.setFileAttributes
  let oc := p.fate 0 Syscall.createFile && p.fate 0 Syscall.setCompression
  let oz := p.fate 0 Syscall.createFile && p.fate 0 Syscall.setSparse
  let pre := s && (!hasFlag a FILE_ATTRIBUTE_COMPRESSED || oc) &&
    (!hasFlag a FILE_ATTRIBUTE_SPARSE_FILE || oz)
  if g && a != INVALID_FILE_ATTRIBUTES then
    repaired p a s oc oz
      (!pre && (repaired p a s oc oz false != INVALID_FILE_ATTRIBUTES) && s)
  else a

/-- The bits `SetFileAttributes` is documented to change: READONLY, HIDDEN,
SYSTEM, ARCHIVE, NORMAL, TEMPORARY, OFFLINE, NOT_CONTENT_INDEXED. -/
def documentedSettable : Nat :=
  FILE_ATTRIBUTE_READONLY ||| FILE_ATTRIBUTE_HIDDEN ||| FILE_ATTRIBUTE_SYSTEM |||
    FILE_ATTRIBUTE_ARCHIVE ||| FILE_ATTRIBUTE_NORMAL ||| FILE_ATTRIBUTE_TEMPORARY |||
    FILE_ATTRIBUTE_OFFLINE ||| FILE_ATTRIBUTE_NOT_CONTENT_INDEXED

/-- Every call succeeds. -/
def allSucceed : Nat → Syscall → Bool := fun _ _ => true

/-- The outcome of a call depends on its kind only, not on when it is issued. -/
def Steady (p : Platform) : Prop := ∀ n k, p.fate n k = p.fate 0 k

end Win32

namespace Linux

/-! ## `src/linux/diagnosebasic_linux.cpp` -/

/-- What the source observes of the `QProcess` it started. -/
structure Process where
  waitForFinished : Nat → Bool
  exitCode : Int
  errorString : String
  readAllStandardError : String
  readAllStandardOutput : String

/-- The calls used by the source: `QStandardPaths::findExecutable` (an empty
string when nothing is found) and the start of a process with its program and
arguments. -/
structure OS (σ : Type) where
  findExecutable : String → σ → String × σ
  start : String → List String → σ → Process × σ

/-- One call to the environment. -/
inductive Event where
  | findExecutable (name : String) (result : String)
  | start (program : String) (arguments : List String)
  deriving DecidableEq

/-- World, calls issued, and the returned value. -/
structure Frame (σ : Type) where
  world : σ
  trace : List Event
  result : Bool

/-- The function `checkFileAttributes` (lines 6-36). -/
def checkFileAttributes {σ : Type} (os : OS σ) (path : String) (w : σ) : Frame σ :=
  let r := os.findExecutable "lsattr" w
  let lsattr := r.1
  let tr := [Event.findExecutable "lsattr" lsattr]
  if lsattr.isEmpty then
    { world := r.2, trace := tr, result := false }
  else
    let q := os.start lsattr [path] r.2
    let p := q.1
    let tr := tr ++ [Event.start lsattr [path]]
    if !p.waitForFinished 1000 then
      { world := q.2, trace := tr, result := false }
    else if p.exitCode ≠ 0 then
      { world := q.2, trace := tr, result := false }
    else
      { world := q.2, trace := tr, result := true }

/-- The function `fixFileAttributes` (lines 38-43). -/
def fixFileAttributes (_path : String) : Bool := true

/-- A process that is started. -/
def Event.isStart : Event → Bool
  | Event.start _ _ => true
  | _ => false

/-- A process that finishes within any wait, exits with `code` and prints
nothing. -/
def quietProcess (code : Int) : Process where
  waitForFinished _ := true
  exitCode := code
  errorString := ""
  readAllStandardError := ""
  readAllStandardOutput := ""

/-- An environment without `lsattr`. -/
def noTool : OS Unit where
  findExecutable _ w := ("", w)
  start _ _ w := (quietProcess 0, w)

/-- An environment where `lsattr` is found, finishes at once and exits with
`code`. -/
def toolExits (code : Int) : OS Unit where
  findExecutable _ w := ("/usr/bin/lsattr", w)
  start _ _ w := (quietProcess code, w)

/-- The same environment, except that every process prints `out` of what it
would have printed. -/
def OS.relist {σ : Type} (os : OS σ) (out : String → String) : OS σ where
  findExecutable := os.findExecutable
  start program arguments w :=
    ({ (os.start program arguments w).1 with
        readAllStandardOutput := out (os.start program arguments w).1.readAllStandardOutput },
      (os.start program arguments w).2)

end Linux

/-! # Theorems -/

namespace Win32

/-! ## Bit-level facts -/

theorem hasFlag_iff (a m : Nat) :
    hasFlag a m = true ↔ ∃ i, a.testBit i = true ∧ m.testBit i = true := by
  unfold hasFlag
  rw [bne_iff_ne]
  constructor
  · intro h
    by_contra hc
    apply h
    apply Nat.eq_of_testBit_eq
    intro i
    rw [Nat.testBit_land, Nat.zero_testBit]
    cases ha : a.testBit i <;> cases hm : m.testBit i <;> simp
    exact hc ⟨i, ha, hm⟩
  · rintro ⟨i, ha, hm⟩ h
    have := Nat.testBit_land a m i
    rw [h, Nat.zero_testBit, ha, hm] at this
    simp at this

theorem hasFlag_two_pow (a k : Nat) : hasFlag a (2 ^ k) = a.testBit k := by
  rw [Bool.eq_iff_iff, hasFlag_iff]
  constructor
  · rintro ⟨i, ha, hi⟩
    rw [Nat.testBit_two_pow] at hi
    have : k = i := by simpa using hi
    rw [this]; exact ha
  · intro h
    exact ⟨k, h, Nat.testBit_two_pow_self⟩

theorem within_two_pow (a k : Nat) : Within (2 ^ k) a ↔ a.testBit k = true := by
  constructor
  · intro h
    exact h k Nat.testBit_two_pow_self
  · intro h i hi
    rw [Nat.testBit_two_pow] at hi
    have : k = i := by simpa using hi
    rw [← this]; exact h

theorem within_iff_land (a b : Nat) : Within a b ↔ a &&& b = a := by
  constructor
  · intro h
    apply Nat.eq_of_testBit_eq
    intro i
    rw [Nat.testBit_land]
    cases ha : a.testBit i
    · simp
    · simp [h i ha]
  · intro h i hi
    rw [← h, Nat.testBit_land] at hi
    simp at hi
    exact hi.2

theorem testBit_dwordNot (x i : Nat) (hx : x < 2 ^ 32) :
    (dwordNot x).testBit i = (decide (i < 32) && !x.testBit i) := by
  unfold dwordNot
  rw [Nat.mod_eq_of_lt hx, Nat.testBit_xor]
  have h : (0xFFFFFFFF : Nat) = 2 ^ 32 - 1 := by norm_num
  rw [h, Nat.testBit_two_pow_sub_one]
  by_cases hi : i < 32
  · simp [hi]
  · have hx2 : x < 2 ^ i := lt_of_lt_of_le hx (Nat.pow_le_pow_right (by norm_num) (by omega))
    simp [hi, Nat.testBit_lt_two_pow hx2]

theorem archive_eq : FILE_ATTRIBUTE_ARCHIVE = 2 ^ 5 := by decide
theorem normal_eq : FILE_ATTRIBUTE_NORMAL = 2 ^ 7 := by decide
theorem sparse_eq : FILE_ATTRIBUTE_SPARSE_FILE = 2 ^ 9 := by decide
theorem compressed_eq : FILE_ATTRIBUTE_COMPRESSED = 2 ^ 11 := by decide

/-- The inner condition of `checkFileAttributes`, bit by bit. -/
theorem abnormal_iff (attrs : Nat) :
    abnormal attrs = true ↔
      ¬ Within FILE_ATTRIBUTE_ARCHIVE attrs ∧ ¬ Within FILE_ATTRIBUTE_NORMAL attrs ∧
        ∃ i, i < 32 ∧ attrs.testBit i = true ∧
          (FILE_ATTRIBUTE_DIRECTORY ||| FILE_ATTRIBUTE_ARCHIVE).testBit i = false := by
  unfold abnormal
  rw [Bool.and_eq_true, Bool.and_eq_true, hasFlag_iff]
  rw [archive_eq, normal_eq, hasFlag_two_pow, hasFlag_two_pow, within_two_pow, within_two_pow]
  have hlt : 2 ^ 4 ||| 2 ^ 5 < 2 ^ 32 := by decide
  have hd : FILE_ATTRIBUTE_DIRECTORY = 2 ^ 4 := by decide
  rw [hd]
  simp only [testBit_dwordNot _ _ hlt, Bool.and_eq_true, decide_eq_true_eq, Bool.not_eq_true',
    Bool.not_eq_true, and_assoc]
  constructor
  · rintro ⟨h1, h2, i, h3, h4, h5⟩
    exact ⟨h1, h2, i, h4, h3, h5⟩
  · rintro ⟨h1, h2, i, h3, h4, h5⟩
    exact ⟨h1, h2, i, h4, h3, h5⟩

/-- The returned value of `checkFileAttributes` in terms of what was read. -/
theorem checkFileAttributes_success {σ : Type} (os : OS σ) (w : σ) :
    (checkFileAttributes os w).success = true ↔
      (os.getFileAttributes w).1 ≠ INVALID_FILE_ATTRIBUTES ∧
        abnormal (os.getFileAttributes w).1 = true := by
  unfold checkFileAttributes
  by_cases h1 : (os.getFileAttributes w).1 = INVALID_FILE_ATTRIBUTES
  · simp [h1]
  · by_cases h2 : abnormal (os.getFileAttributes w).1 = true
    · simp [h1, h2]
    · simp [h1, h2]

/-- C1: `checkFileAttributes` returns true exactly when the read succeeded,
neither ARCHIVE nor NORMAL is set, and some bit (of the 32) outside
{DIRECTORY, ARCHIVE} is set.  In particular it returns false for every bitmask
whose flags are among {DIRECTORY, ARCHIVE}, and for every bitmask with ARCHIVE
or NORMAL set. -/
theorem checkFileAttributes_spec {σ : Type} (os : OS σ) (w : σ) :
    ((checkFileAttributes os w).success = true ↔
      (os.getFileAttributes w).1 ≠ INVALID_FILE_ATTRIBUTES ∧
      ¬ Within FILE_ATTRIBUTE_ARCHIVE (os.getFileAttributes w).1 ∧
      ¬ Within FILE_ATTRIBUTE_NORMAL (os.getFileAttributes w).1 ∧
      ∃ i, i < 32 ∧ (os.getFileAttributes w).1.testBit i = true ∧
        (FILE_ATTRIBUTE_DIRECTORY ||| FILE_ATTRIBUTE_ARCHIVE).testBit i = false) ∧
    (Within (os.getFileAttributes w).1 (FILE_ATTRIBUTE_DIRECTORY ||| FILE_ATTRIBUTE_ARCHIVE) →
      (checkFileAttributes os w).success = false) ∧
    (Within FILE_ATTRIBUTE_ARCHIVE (os.getFileAttributes w).1 ∨
        Within FILE_ATTRIBUTE_NORMAL (os.getFileAttributes w).1 →
      (checkFileAttributes os w).success = false) := by
  have key := checkFileAttributes_success os w
  refine ⟨by rw [key, abnormal_iff], ?_, ?_⟩
  · intro hsub
    rw [← Bool.not_eq_true, key, abnormal_iff]
    rintro ⟨_, _, _, i, _, hi, hno⟩
    rw [hsub i hi] at hno
    exact Bool.noConfusion hno
  · intro hset
    rw [← Bool.not_eq_true, key, abnormal_iff]
    rintro ⟨_, ha, hn, _⟩
    rcases hset with h | h
    · exact ha h
    · exact hn h

/-- C1 at a file with attributes DIRECTORY and ARCHIVE: not reported. -/
theorem checkFileAttributes_spec_witness :
    (checkFileAttributes (model ⟨documentedSettable, allSucceed⟩) ⟨0x30, 0⟩).success = false :=
  (checkFileAttributes_spec (model ⟨documentedSettable, allSucceed⟩) ⟨0x30, 0⟩).2.1
    ((within_iff_land _ _).2 (by decide))

/-! ## Every run has a summary -/

theorem deviceControl_run {σ : Type} (os : OS σ) (site : Site) (code : Fsctl) (f : Frame σ) :
    ∃ s : StepRun, s ≠ StepRun.skipped ∧
      (deviceControl os site code f).trace = f.trace ++ s.events site code ∧
      (deviceControl os site code f).success = (f.success && s.ok) := by
  unfold deviceControl
  cases h : (os.createFile f.world).1 with
  | none =>
    exact ⟨StepRun.openFailed, by simp, by simp [h, StepRun.events], by simp [h, StepRun.ok]⟩
  | some hndl =>
    refine ⟨StepRun.controlled hndl (os.deviceIoControl hndl code (os.createFile f.world).2).1,
      by simp, by simp [h, StepRun.events], ?_⟩
    cases hc : (os.deviceIoControl hndl code (os.createFile f.world).2).1 <;>
      simp [h, hc, StepRun.ok]

theorem lastDitch_run {σ : Type} (os : OS σ) (f : Frame σ) :
    ∃ b : FallbackRun, (b = FallbackRun.notRun ↔ f.success = true) ∧
      (∀ x ok, b = FallbackRun.wrote x ok → x ≠ INVALID_FILE_ATTRIBUTES) ∧
      (lastDitch os f).trace = f.trace ++ b.events ∧
      (lastDitch os f).success =
        (match b with
          | FallbackRun.notRun => f.success
          | FallbackRun.unreadable => false
          | FallbackRun.wrote _ ok => ok) := by
  unfold lastDitch
  cases hs : f.success with
  | true =>
    exact ⟨FallbackRun.notRun, by simp, by simp, by simp [hs, FallbackRun.events], by simp [hs]⟩
  | false =>
    by_cases hr : (os.getFileAttributes f.world).1 = INVALID_FILE_ATTRIBUTES
    · exact ⟨FallbackRun.unreadable, by simp, by simp, by simp [hs, FallbackRun.events, hr],
        by simp [hs, hr]⟩
    · refine ⟨FallbackRun.wrote (os.getFileAttributes f.world).1
        (os.setFileAttributes ((os.getFileAttributes f.world).1 ||| FILE_ATTRIBUTE_ARCHIVE)
          (os.getFileAttributes f.world).2).1, by simp, ?_, by simp [hs, FallbackRun.events, hr], ?_⟩
      · intro x ok hx
        cases hx
        exact hr
      · cases hw : (os.setFileAttributes
          ((os.getFileAttributes f.world).1 ||| FILE_ATTRIBUTE_ARCHIVE)
          (os.getFileAttributes f.world).2).1 <;> simp [hs, hr, hw]

/-- Every call of `fixFileAttributes` on a readable path follows one of the
summaries. -/
theorem fixFileAttributes_run {σ : Type} (os : OS σ) (w : σ)
    (h : (os.getFileAttributes w).1 ≠ INVALID_FILE_ATTRIBUTES) :
    ∃ r : Run, r.Consistent ∧ r.attrs = (os.getFileAttributes w).1 ∧
      (fixFileAttributes os w).trace = r.events ∧
      (fixFileAttributes os w).success = r.success := by
  unfold fixFileAttributes
  simp only [h, ne_eq, not_false_eq_true, if_true]
  generalize (os.getFileAttributes w).1 = attrs at h ⊢
  generalize hf1 : clearAll os attrs
    { world := (os.getFileAttributes w).2,
      trace := [Event.getFileAttributes Site.entry attrs], success := true } = f1
  have ht1 : f1.trace = [Event.getFileAttributes Site.entry attrs,
      Event.setFileAttributes Site.clearAll
        (if hasFlag attrs FILE_ATTRIBUTE_ARCHIVE then FILE_ATTRIBUTE_ARCHIVE else 0)
        f1.success] := by
    subst hf1
    unfold clearAll
    cases hx : (os.setFileAttributes
      (if hasFlag attrs FILE_ATTRIBUTE_ARCHIVE = true then FILE_ATTRIBUTE_ARCHIVE else 0)
      (os.getFileAttributes w).2).1 <;> simp [hx]
  -- step 2
  have h2 : ∃ s : StepRun,
      (s = StepRun.skipped ↔ hasFlag attrs FILE_ATTRIBUTE_COMPRESSED = false) ∧
      (disableCompression os attrs f1).trace =
        f1.trace ++ s.events Site.compression Fsctl.FSCTL_SET_COMPRESSION ∧
      (disableCompression os attrs f1).success = (f1.success && s.ok) := by
    unfold disableCompression
    cases hc : hasFlag attrs FILE_ATTRIBUTE_COMPRESSED with
    | false => exact ⟨StepRun.skipped, by simp, by simp [StepRun.events], by simp [StepRun.ok]⟩
    | true =>
      obtain ⟨s, hs1, hs2, hs3⟩ :=
        deviceControl_run os Site.compression Fsctl.FSCTL_SET_COMPRESSION f1
      exact ⟨s, by simp [hs1], by simpa using hs2, by simpa using hs3⟩
  obtain ⟨sc, hc1, hc2, hc3⟩ := h2
  generalize disableCompression os attrs f1 = f2 at hc2 hc3 ⊢
  -- step 3
  have h3 : ∃ s : StepRun,
      (s = StepRun.skipped ↔ hasFlag attrs FILE_ATTRIBUTE_SPARSE_FILE = false) ∧
      (disableSparseness os attrs f2).trace =
        f2.trace ++ s.events Site.sparse Fsctl.FSCTL_SET_SPARSE ∧
      (disableSparseness os attrs f2).success = (f2.success && s.ok) := by
    unfold disableSparseness
    cases hc : hasFlag attrs FILE_ATTRIBUTE_SPARSE_FILE with
    | false => exact ⟨StepRun.skipped, by simp, by simp [StepRun.events], by simp [StepRun.ok]⟩
    | true =>
      obtain ⟨s, hs1, hs2, hs3⟩ := deviceControl_run os Site.sparse Fsctl.FSCTL_SET_SPARSE f2
      exact ⟨s, by simp [hs1], by simpa using hs2, by simpa using hs3⟩
  obtain ⟨ss, hz1, hz2, hz3⟩ := h3
  generalize disableSparseness os attrs f2 = f3 at hz2 hz3 ⊢
  obtain ⟨b, hb1, hb2, hb3, hb4⟩ := lastDitch_run os f3
  refine ⟨⟨attrs, f1.success, sc, ss, b⟩, ⟨h, hc1, hz1, ?_, hb2⟩, rfl, ?_, ?_⟩
  · rw [hb1, hz3, hc3]
    simp [Run.stepsOk]
  · rw [hb3, hz2, hc2, ht1]
    simp [Run.events]
  · rw [hb4]
    simp only [Run.success, Run.stepsOk]
    cases b <;> simp [hz3, hc3]

theorem run_returns (r : Run) (hc : r.Consistent) :
    r.success = true ↔ AllStepsOk r.attrs r.events ∨ FallbackSucceeded r.events := by
  rcases r with ⟨attrs, ok1, c, s, b⟩
  obtain ⟨h0, h1, h2, h3, h4⟩ := hc
  cases ok1 <;> cases c <;> cases s <;> cases b <;>
    simp_all [Run.events, Run.success, Run.stepsOk, StepRun.events, StepRun.ok,
      FallbackRun.events, AllStepsOk, FallbackSucceeded]

/-- C2: on a path whose attributes are readable at entry, `fixFileAttributes`
returns true exactly when every attempted step succeeded or the fallback
succeeded. -/
theorem fixFileAttributes_returns {σ : Type} (os : OS σ) (w : σ)
    (h : (os.getFileAttributes w).1 ≠ INVALID_FILE_ATTRIBUTES) :
    (fixFileAttributes os w).success = true ↔
      AllStepsOk (os.getFileAttributes w).1 (fixFileAttributes os w).trace ∨
      FallbackSucceeded (fixFileAttributes os w).trace := by
  obtain ⟨r, hc, ha, ht, hs⟩ := fixFileAttributes_run os w h
  rw [ht, hs, ← ha]
  exact run_returns r hc

/-- C6: when the attributes cannot be read at entry, `fixFileAttributes`
returns false, the failed read is the only call it issues, the world is the one
that read left, and in the file model the bitmask is unchanged. -/
theorem fixFileAttributes_unreadable {σ : Type} (os : OS σ) (w : σ)
    (h : (os.getFileAttributes w).1 = INVALID_FILE_ATTRIBUTES) (p : Platform) (f : File) :
    (fixFileAttributes os w).success = false ∧
    (fixFileAttributes os w).trace =
      [Event.getFileAttributes Site.entry INVALID_FILE_ATTRIBUTES] ∧
    (fixFileAttributes os w).world = (os.getFileAttributes w).2 ∧
    (((model p).getFileAttributes f).1 = INVALID_FILE_ATTRIBUTES →
      (fixFileAttributes (model p) f).world.attrs = f.attrs) := by
  have gen : ∀ {τ : Type} (o : OS τ) (x : τ),
      (o.getFileAttributes x).1 = INVALID_FILE_ATTRIBUTES →
      (fixFileAttributes o x).world = (o.getFileAttributes x).2 := by
    intro τ o x hx
    simp [fixFileAttributes, hx]
  refine ⟨?_, ?_, gen os w h, ?_⟩
  · simp [fixFileAttributes, h]
  · simp [fixFileAttributes, h]
  · intro hf
    rw [gen (model p) f hf]
    rfl

/-- C6 at a file whose read fails. -/
theorem fixFileAttributes_unreadable_witness :
    (fixFileAttributes (model ⟨documentedSettable, fun _ _ => false⟩) ⟨0x802, 0⟩).success = false ∧
    (fixFileAttributes (model ⟨documentedSettable, fun _ _ => false⟩) ⟨0x802, 0⟩).world.attrs =
      0x802 :=
  ⟨(fixFileAttributes_unreadable (model ⟨documentedSettable, fun _ _ => false⟩) ⟨0x802, 0⟩
      (by decide) ⟨documentedSettable, fun _ _ => false⟩ ⟨0x802, 0⟩).1,
    (fixFileAttributes_unreadable (model ⟨documentedSettable, fun _ _ => false⟩) ⟨0x802, 0⟩
      (by decide) ⟨documentedSettable, fun _ _ => false⟩ ⟨0x802, 0⟩).2.2.2 (by decide)⟩

/-- C2 at a compressed, sparse, hidden file. -/
theorem fixFileAttributes_returns_witness :
    ((model ⟨documentedSettable, allSucceed⟩).getFileAttributes ⟨0xA02, 0⟩).1 ≠
      INVALID_FILE_ATTRIBUTES ∧
    ((fixFileAttributes (model ⟨documentedSettable, allSucceed⟩) ⟨0xA02, 0⟩).success = true ↔
      AllStepsOk ((model ⟨documentedSettable, allSucceed⟩).getFileAttributes ⟨0xA02, 0⟩).1
        (fixFileAttributes (model ⟨documentedSettable, allSucceed⟩) ⟨0xA02, 0⟩).trace ∨
      FallbackSucceeded
        (fixFileAttributes (model ⟨documentedSettable, allSucceed⟩) ⟨0xA02, 0⟩).trace) :=
  ⟨by decide, fixFileAttributes_returns _ _ (by decide)⟩

theorem run_steps (r : Run) (hc : r.Consistent) :
    (r.events.countP (fun e => e.isCreateFile && e.site == Site.compression) =
      if hasFlag r.attrs FILE_ATTRIBUTE_COMPRESSED then 1 else 0) ∧
    (r.events.countP (fun e => e.isCreateFile && e.site == Site.sparse) =
      if hasFlag r.attrs FILE_ATTRIBUTE_SPARSE_FILE then 1 else 0) ∧
    (∀ hd, Event.createFile Site.compression (some hd) ∈ r.events ↔
      ∃ ok, Event.deviceIoControl Site.compression hd Fsctl.FSCTL_SET_COMPRESSION ok ∈ r.events) ∧
    (∀ hd, Event.createFile Site.sparse (some hd) ∈ r.events ↔
      ∃ ok, Event.deviceIoControl Site.sparse hd Fsctl.FSCTL_SET_SPARSE ok ∈ r.events) ∧
    (∀ s hd c ok, Event.deviceIoControl s hd c ok ∈ r.events →
      (s = Site.compression ∧ c = Fsctl.FSCTL_SET_COMPRESSION) ∨
      (s = Site.sparse ∧ c = Fsctl.FSCTL_SET_SPARSE)) ∧
    (hasFlag r.attrs FILE_ATTRIBUTE_SPARSE_FILE = true →
      ∃ x, Event.createFile Site.sparse x ∈ r.events) := by
  rcases r with ⟨attrs, ok1, c, s, b⟩
  obtain ⟨h0, h1, h2, h3, h4⟩ := hc
  simp only at h0 h1 h2
  clear h3 h4
  refine ⟨?_, ?_, ?_, ?_, ?_, ?_⟩
  · cases c <;> cases s <;> cases b <;>
      simp_all [Run.events, StepRun.events, FallbackRun.events, Event.isCreateFile, Event.site,
        List.countP_cons]
  · cases c <;> cases s <;> cases b <;>
      simp_all [Run.events, StepRun.events, FallbackRun.events, Event.isCreateFile, Event.site,
        List.countP_cons]
  · intro hd
    cases c <;> cases s <;> cases b <;>
      simp [Run.events, StepRun.events, FallbackRun.events]
  · intro hd
    cases c <;> cases s <;> cases b <;>
      simp [Run.events, StepRun.events, FallbackRun.events]
  · intro x hd y ok hmem
    cases c <;> cases s <;> cases b <;>
      simp [Run.events, StepRun.events, FallbackRun.events] at hmem <;> tauto
  · intro hS
    cases c <;> cases s <;> cases b <;>
      simp_all [Run.events, StepRun.events, FallbackRun.events]

/-- C8: on a readable path the open for the compression request is issued
exactly once when COMPRESSED was set at entry and not at all otherwise, and
likewise the open for the sparse request for SPARSE_FILE, whatever the other
calls answered; a handle is followed by the control request of its step, and no
other control request is issued.  In particular the sparse step is attempted
whenever SPARSE_FILE was set, also after a failure in the compression step. -/
theorem fixFileAttributes_steps_independent {σ : Type} (os : OS σ) (w : σ)
    (h : (os.getFileAttributes w).1 ≠ INVALID_FILE_ATTRIBUTES) :
    ((fixFileAttributes os w).trace.countP
        (fun e => e.isCreateFile && e.site == Site.compression) =
      if hasFlag (os.getFileAttributes w).1 FILE_ATTRIBUTE_COMPRESSED then 1 else 0) ∧
    ((fixFileAttributes os w).trace.countP
        (fun e => e.isCreateFile && e.site == Site.sparse) =
      if hasFlag (os.getFileAttributes w).1 FILE_ATTRIBUTE_SPARSE_FILE then 1 else 0) ∧
    (∀ hd, Event.createFile Site.compression (some hd) ∈ (fixFileAttributes os w).trace ↔
      ∃ ok, Event.deviceIoControl Site.compression hd Fsctl.FSCTL_SET_COMPRESSION ok ∈
        (fixFileAttributes os w).trace) ∧
    (∀ hd, Event.createFile Site.sparse (some hd) ∈ (fixFileAttributes os w).trace ↔
      ∃ ok, Event.deviceIoControl Site.sparse hd Fsctl.FSCTL_SET_SPARSE ok ∈
        (fixFileAttributes os w).trace) ∧
    (∀ s hd c ok, Event.deviceIoControl s hd c ok ∈ (fixFileAttributes os w).trace →
      (s = Site.compression ∧ c = Fsctl.FSCTL_SET_COMPRESSION) ∨
      (s = Site.sparse ∧ c = Fsctl.FSCTL_SET_SPARSE)) ∧
    (hasFlag (os.getFileAttributes w).1 FILE_ATTRIBUTE_SPARSE_FILE = true →
      ∃ x, Event.createFile Site.sparse x ∈ (fixFileAttributes os w).trace) := by
  obtain ⟨r, hc, ha, ht, _⟩ := fixFileAttributes_run os w h
  rw [ht, ← ha]
  exact run_steps r hc

/-- C8 at a compressed and sparse file that cannot be opened: both opens are
attempted. -/
theorem fixFileAttributes_steps_independent_witness :
    (fixFileAttributes (model ⟨documentedSettable, fun _ k => k != Syscall.createFile⟩)
        ⟨0xA00, 0⟩).trace.countP (fun e => e.isCreateFile && e.site == Site.sparse) = 1 :=
  (fixFileAttributes_steps_independent
    (model ⟨documentedSettable, fun _ k => k != Syscall.createFile⟩) ⟨0xA00, 0⟩
    (by decide)).2.1

theorem run_fallback (r : Run) (hc : r.Consistent) :
    (FallbackRan r.events ↔ stepFailed r.events = true) ∧
    (∀ x, Event.getFileAttributes Site.lastDitch x ∈ r.events →
      x ≠ INVALID_FILE_ATTRIBUTES →
      ∃ ok, Event.setFileAttributes Site.lastDitch (x ||| FILE_ATTRIBUTE_ARCHIVE) ok ∈
        r.events) ∧
    (∀ v ok, Event.setFileAttributes Site.lastDitch v ok ∈ r.events →
      ∃ x, Event.getFileAttributes Site.lastDitch x ∈ r.events ∧
        x ≠ INVALID_FILE_ATTRIBUTES ∧ v = x ||| FILE_ATTRIBUTE_ARCHIVE) ∧
    r.events.countP (fun e => e.isGetFileAttributes && e.site == Site.lastDitch) ≤ 1 ∧
    r.events.countP (fun e => e.isSetFileAttributes && e.site == Site.lastDitch) ≤ 1 ∧
    (stepFailed r.events = false →
      r.events.countP Event.isGetFileAttributes = 1 ∧
      r.events.countP Event.isSetFileAttributes = 1) := by
  rcases r with ⟨attrs, ok1, c, s, b⟩
  obtain ⟨h0, h1, h2, h3, h4⟩ := hc
  simp only at h3 h4
  clear h0 h1 h2
  refine ⟨?_, ?_, ?_, ?_, ?_, ?_⟩
  · rcases ok1 with _ | _ <;> rcases c with _ | _ | ⟨_, _ | _⟩ <;>
      rcases s with _ | _ | ⟨_, _ | _⟩ <;> cases b <;>
      simp_all [Run.events, StepRun.events, FallbackRun.events, FallbackRan, stepFailed,
        Run.stepsOk, StepRun.ok, Event.site, Event.failed, Site.isStep]
  · intro x hmem hx
    cases c <;> cases s <;> cases b <;>
      simp_all [Run.events, StepRun.events, FallbackRun.events]
  · intro v ok hmem
    cases c <;> cases s <;> cases b <;>
      simp_all [Run.events, StepRun.events, FallbackRun.events]
  · simp only [Run.events]
    generalize (if hasFlag attrs FILE_ATTRIBUTE_ARCHIVE = true then FILE_ATTRIBUTE_ARCHIVE
      else 0) = v
    have hstep : ∀ site code (x : StepRun), (x.events site code).countP
        (fun e => e.isGetFileAttributes && e.site == Site.lastDitch) = 0 := by
      intro site code x
      cases x <;> simp [StepRun.events, Event.isGetFileAttributes]
    have hb : b.events.countP
        (fun e => e.isGetFileAttributes && e.site == Site.lastDitch) ≤ 1 := by
      cases b <;>
        simp [FallbackRun.events, Event.isGetFileAttributes, Event.site, List.countP_cons]
    simp only [List.countP_append, hstep]
    simp [List.countP_cons, Event.isGetFileAttributes, Event.site]
    exact hb
  · simp only [Run.events]
    generalize (if hasFlag attrs FILE_ATTRIBUTE_ARCHIVE = true then FILE_ATTRIBUTE_ARCHIVE
      else 0) = v
    have hstep : ∀ site code (x : StepRun), (x.events site code).countP
        (fun e => e.isSetFileAttributes && e.site == Site.lastDitch) = 0 := by
      intro site code x
      cases x <;> simp [StepRun.events, Event.isSetFileAttributes]
    have hb : b.events.countP
        (fun e => e.isSetFileAttributes && e.site == Site.lastDitch) ≤ 1 := by
      cases b <;>
        simp [FallbackRun.events, Event.isSetFileAttributes, Event.site, List.countP_cons]
    simp only [List.countP_append, hstep]
    simp [List.countP_cons, Event.isSetFileAttributes, Event.site]
    exact hb
  · intro hf
    have hfail : stepFailed (Run.events ⟨attrs, ok1, c, s, b⟩) =
        !(Run.stepsOk ⟨attrs, ok1, c, s, b⟩) := by
      simp only [Run.events, stepFailed, Run.stepsOk]
      generalize (if hasFlag attrs FILE_ATTRIBUTE_ARCHIVE = true then FILE_ATTRIBUTE_ARCHIVE
        else 0) = v
      have hc : (c.events Site.compression Fsctl.FSCTL_SET_COMPRESSION).any
          (fun e => e.site.isStep && e.failed) = !c.ok := by
        rcases c with _ | _ | ⟨_, _ | _⟩ <;>
          simp [StepRun.events, StepRun.ok, Event.site, Event.failed, Site.isStep]
      have hs : (s.events Site.sparse Fsctl.FSCTL_SET_SPARSE).any
          (fun e => e.site.isStep && e.failed) = !s.ok := by
        rcases s with _ | _ | ⟨_, _ | _⟩ <;>
          simp [StepRun.events, StepRun.ok, Event.site, Event.failed, Site.isStep]
      have hb : b.events.any (fun e => e.site.isStep && e.failed) = false := by
        cases b <;> simp [FallbackRun.events, Event.site, Site.isStep]
      simp only [List.any_append, hc, hs, hb]
      cases ok1 <;> cases c.ok <;> cases s.ok <;>
        simp [Event.site, Event.failed, Site.isStep]
    rw [hfail] at hf
    have hb : b = FallbackRun.notRun := h3.2 (by simpa using hf)
    subst hb
    simp only [Run.events]
    generalize (if hasFlag attrs FILE_ATTRIBUTE_ARCHIVE = true then FILE_ATTRIBUTE_ARCHIVE
      else 0) = v
    have hg : ∀ site code (x : StepRun),
        (x.events site code).countP Event.isGetFileAttributes = 0 := by
      intro site code x
      cases x <;> simp [StepRun.events, Event.isGetFileAttributes]
    have hw : ∀ site code (x : StepRun),
        (x.events site code).countP Event.isSetFileAttributes = 0 := by
      intro site code x
      cases x <;> simp [StepRun.events, Event.isSetFileAttributes]
    simp only [List.countP_append, hg, hw]
    simp [FallbackRun.events, List.countP_cons, Event.isGetFileAttributes,
      Event.isSetFileAttributes]

theorem run_handles (r : Run) :
    handlesOk none r.events = true ∧
    r.events.countP Event.isCreateFile ≤ 2 ∧
    r.events.countP Event.isCloseHandle = r.events.countP Event.isOpened := by
  rcases r with ⟨attrs, ok1, c, s, b⟩
  refine ⟨?_, ?_, ?_⟩
  · cases c <;> cases s <;> cases b <;>
      simp [Run.events, StepRun.events, FallbackRun.events, handlesOk]
  · cases c <;> cases s <;> cases b <;>
      simp [Run.events, StepRun.events, FallbackRun.events, List.countP_cons,
        Event.isCreateFile]
  · cases c <;> cases s <;> cases b <;>
      simp [Run.events, StepRun.events, FallbackRun.events, List.countP_cons,
        Event.isCloseHandle, Event.isOpened]

theorem fixFileAttributes_trace_unreadable {σ : Type} (os : OS σ) (w : σ)
    (h : (os.getFileAttributes w).1 = INVALID_FILE_ATTRIBUTES) :
    (fixFileAttributes os w).trace =
      [Event.getFileAttributes Site.entry INVALID_FILE_ATTRIBUTES] := by
  simp [fixFileAttributes, h]

/-- C9: the fallback runs exactly when the entry read succeeded and a call of
steps 1-3 failed.  When its read succeeds it writes what it read with ARCHIVE
added, and it writes nothing else; ARCHIVE is then set and every other bit is
as read.  It reads at most once and writes at most once, and when no step
failed the entry read is the only read and step 1 the only write. -/
theorem fixFileAttributes_fallback {σ : Type} (os : OS σ) (w : σ) :
    (FallbackRan (fixFileAttributes os w).trace ↔
      (os.getFileAttributes w).1 ≠ INVALID_FILE_ATTRIBUTES ∧
      stepFailed (fixFileAttributes os w).trace = true) ∧
    (∀ x, Event.getFileAttributes Site.lastDitch x ∈ (fixFileAttributes os w).trace →
      x ≠ INVALID_FILE_ATTRIBUTES →
      ∃ ok, Event.setFileAttributes Site.lastDitch (x ||| FILE_ATTRIBUTE_ARCHIVE) ok ∈
        (fixFileAttributes os w).trace) ∧
    (∀ v ok, Event.setFileAttributes Site.lastDitch v ok ∈ (fixFileAttributes os w).trace →
      ∃ x, Event.getFileAttributes Site.lastDitch x ∈ (fixFileAttributes os w).trace ∧
        x ≠ INVALID_FILE_ATTRIBUTES ∧ v = x ||| FILE_ATTRIBUTE_ARCHIVE) ∧
    (fixFileAttributes os w).trace.countP
      (fun e => e.isGetFileAttributes && e.site == Site.lastDitch) ≤ 1 ∧
    (fixFileAttributes os w).trace.countP
      (fun e => e.isSetFileAttributes && e.site == Site.lastDitch) ≤ 1 ∧
    (stepFailed (fixFileAttributes os w).trace = false →
      (fixFileAttributes os w).trace.countP Event.isGetFileAttributes = 1 ∧
      (fixFileAttributes os w).trace.countP Event.isSetFileAttributes ≤ 1) ∧
    (∀ x, Within FILE_ATTRIBUTE_ARCHIVE (x ||| FILE_ATTRIBUTE_ARCHIVE) ∧
      ∀ i, FILE_ATTRIBUTE_ARCHIVE.testBit i = false →
        (x ||| FILE_ATTRIBUTE_ARCHIVE).testBit i = x.testBit i) := by
  have hbits : ∀ x, Within FILE_ATTRIBUTE_ARCHIVE (x ||| FILE_ATTRIBUTE_ARCHIVE) ∧
      ∀ i, FILE_ATTRIBUTE_ARCHIVE.testBit i = false →
        (x ||| FILE_ATTRIBUTE_ARCHIVE).testBit i = x.testBit i := by
    intro x
    constructor
    · intro i hi
      rw [Nat.testBit_lor, hi, Bool.or_true]
    · intro i hi
      rw [Nat.testBit_lor, hi, Bool.or_false]
  by_cases h : (os.getFileAttributes w).1 = INVALID_FILE_ATTRIBUTES
  · rw [fixFileAttributes_trace_unreadable os w h]
    refine ⟨?_, ?_, ?_, ?_, ?_, ?_, hbits⟩ <;>
      simp [FallbackRan, stepFailed, h, Event.site, Site.isStep, Event.isGetFileAttributes,
        Event.isSetFileAttributes]
  · obtain ⟨r, hc, _, ht, _⟩ := fixFileAttributes_run os w h
    rw [ht]
    obtain ⟨h1, h2, h3, h4, h5, h6⟩ := run_fallback r hc
    refine ⟨?_, h2, h3, h4, h5, ?_, hbits⟩
    · rw [h1]
      simp [h]
    · intro hf
      have := h6 hf
      omega

/-- C10: along the trace of every call the handle discipline holds (a handle is
opened only when none is open, controlled and closed only while it is the open
one, and none is open at the end), at most two opens are issued, and there are
as many closes as successful opens. -/
theorem fixFileAttributes_handles {σ : Type} (os : OS σ) (w : σ) :
    handlesOk none (fixFileAttributes os w).trace = true ∧
    (fixFileAttributes os w).trace.countP Event.isCreateFile ≤ 2 ∧
    (fixFileAttributes os w).trace.countP Event.isCloseHandle =
      (fixFileAttributes os w).trace.countP Event.isOpened := by
  by_cases h : (os.getFileAttributes w).1 = INVALID_FILE_ATTRIBUTES
  · rw [fixFileAttributes_trace_unreadable os w h]
    simp [handlesOk, Event.isCreateFile, Event.isCloseHandle, Event.isOpened]
  · obtain ⟨r, _, _, ht, _⟩ := fixFileAttributes_run os w h
    rw [ht]
    exact run_handles r

/-! ## The file model -/

theorem testBit_without (a f i : Nat) :
    (without a f).testBit i = (a.testBit i && !f.testBit i) := by
  unfold without
  rw [Nat.testBit_xor, Nat.testBit_land]
  cases a.testBit i <;> cases f.testBit i <;> rfl

theorem testBit_written (p : Platform) (a v i : Nat) :
    (written p a v).testBit i =
      ((a.testBit i && !p.settable.testBit i) || (v.testBit i && p.settable.testBit i)) := by
  unfold written
  rw [Nat.testBit_lor, testBit_without, Nat.testBit_land]

theorem hasFlag_archive (a : Nat) : hasFlag a FILE_ATTRIBUTE_ARCHIVE = a.testBit 5 := by
  rw [archive_eq, hasFlag_two_pow]

theorem hasFlag_compressed (a : Nat) : hasFlag a FILE_ATTRIBUTE_COMPRESSED = a.testBit 11 := by
  rw [compressed_eq, hasFlag_two_pow]

theorem hasFlag_sparse (a : Nat) : hasFlag a FILE_ATTRIBUTE_SPARSE_FILE = a.testBit 9 := by
  rw [sparse_eq, hasFlag_two_pow]

theorem testBit_archive (i : Nat) : FILE_ATTRIBUTE_ARCHIVE.testBit i = decide (5 = i) := by
  rw [archive_eq, Nat.testBit_two_pow]

theorem testBit_compressed (i : Nat) :
    FILE_ATTRIBUTE_COMPRESSED.testBit i = decide (11 = i) := by
  rw [compressed_eq, Nat.testBit_two_pow]

theorem testBit_sparse (i : Nat) : FILE_ATTRIBUTE_SPARSE_FILE.testBit i = decide (9 = i) := by
  rw [sparse_eq, Nat.testBit_two_pow]

theorem model_deviceControl_run (p : Platform) (site : Site) (code : Fsctl) (f : Frame File) :
    ∃ s : StepRun, s ≠ StepRun.skipped ∧
      (deviceControl (model p) site code f).trace = f.trace ++ s.events site code ∧
      (deviceControl (model p) site code f).success = (f.success && s.ok) ∧
      (deviceControl (model p) site code f).world.attrs =
        (if s.ok then without f.world.attrs code.flag else f.world.attrs) ∧
      ∃ n m, s.ok = (p.fate n Syscall.createFile && p.fate m code.kind) := by
  unfold deviceControl
  cases ho : p.fate f.world.clock Syscall.createFile with
  | false =>
    refine ⟨StepRun.openFailed, by simp, ?_, ?_, ?_, f.world.clock, 0, ?_⟩ <;>
      simp [model, ho, StepRun.events, StepRun.ok, File.tick]
  | true =>
    cases hc : p.fate (f.world.clock + 1) code.kind with
    | false =>
      refine ⟨StepRun.controlled f.world.clock false, by simp, ?_, ?_, ?_,
        f.world.clock, f.world.clock + 1, ?_⟩ <;>
        simp [model, ho, hc, StepRun.events, StepRun.ok, File.tick]
    | true =>
      refine ⟨StepRun.controlled f.world.clock true, by simp, ?_, ?_, ?_,
        f.world.clock, f.world.clock + 1, ?_⟩ <;>
        simp [model, ho, hc, StepRun.events, StepRun.ok, File.tick]

theorem model_lastDitch_run (p : Platform) (f : Frame File) :
    ∃ b : FallbackRun, (b = FallbackRun.notRun ↔ f.success = true) ∧
      (∀ x ok, b = FallbackRun.wrote x ok → x ≠ INVALID_FILE_ATTRIBUTES) ∧
      (lastDitch (model p) f).trace = f.trace ++ b.events ∧
      (lastDitch (model p) f).success =
        (match b with
          | FallbackRun.notRun => f.success
          | FallbackRun.unreadable => false
          | FallbackRun.wrote _ ok => ok) ∧
      (lastDitch (model p) f).world.attrs =
        (if b.wroteOk then written p f.world.attrs (f.world.attrs ||| FILE_ATTRIBUTE_ARCHIVE)
          else f.world.attrs) ∧
      ∃ n m, b.wroteOk = (!f.success && p.fate n Syscall.getFileAttributes &&
        (f.world.attrs != INVALID_FILE_ATTRIBUTES) && p.fate m Syscall.setFileAttributes) := by
  unfold lastDitch
  cases hs : f.success with
  | true =>
    refine ⟨FallbackRun.notRun, by simp, by simp, ?_, ?_, ?_, 0, 0, ?_⟩ <;>
      simp [hs, FallbackRun.events, FallbackRun.wroteOk]
  | false =>
    cases hg : p.fate f.world.clock Syscall.getFileAttributes with
    | false =>
      refine ⟨FallbackRun.unreadable, by simp, by simp, ?_, ?_, ?_, f.world.clock, 0, ?_⟩ <;>
        simp [model, hs, hg, FallbackRun.events, FallbackRun.wroteOk, File.tick]
    | true =>
      by_cases hv : f.world.attrs = INVALID_FILE_ATTRIBUTES
      · refine ⟨FallbackRun.unreadable, by simp, by simp, ?_, ?_, ?_, f.world.clock, 0, ?_⟩ <;>
          simp [model, hs, hg, hv, FallbackRun.events, FallbackRun.wroteOk, File.tick]
      · cases hw : p.fate (f.world.clock + 1) Syscall.setFileAttributes with
        | false =>
          refine ⟨FallbackRun.wrote f.world.attrs false, by simp, ?_, ?_, ?_, ?_,
            f.world.clock, f.world.clock + 1, ?_⟩ <;>
            simp [model, hs, hg, hv, hw, FallbackRun.events, FallbackRun.wroteOk, File.tick]
        | true =>
          refine ⟨FallbackRun.wrote f.world.attrs true, by simp, ?_, ?_, ?_, ?_,
            f.world.clock, f.world.clock + 1, ?_⟩ <;>
            simp [model, hs, hg, hv, hw, FallbackRun.events, FallbackRun.wroteOk, File.tick]

/-- Every call on the modelled file follows a summary, and the summary gives
the bitmask the call leaves. -/
theorem model_run (p : Platform) (w : File)
    (hg : p.fate w.clock Syscall.getFileAttributes = true)
    (hv : w.attrs ≠ INVALID_FILE_ATTRIBUTES) :
    ∃ r : Run, r.Consistent ∧ r.attrs = w.attrs ∧
      (fixFileAttributes (model p) w).trace = r.events ∧
      (fixFileAttributes (model p) w).success = r.success ∧
      (fixFileAttributes (model p) w).world.attrs = r.finalAttrs p ∧
      (∃ n, r.ok1 = p.fate n Syscall.setFileAttributes) ∧
      (∃ n m, r.compression.ok = (!hasFlag w.attrs FILE_ATTRIBUTE_COMPRESSED ||
        (p.fate n Syscall.createFile && p.fate m Syscall.setCompression))) ∧
      (∃ n m, r.sparse.ok = (!hasFlag w.attrs FILE_ATTRIBUTE_SPARSE_FILE ||
        (p.fate n Syscall.createFile && p.fate m Syscall.setSparse))) ∧
      (∃ n m, r.fallback.wroteOk = (!r.stepsOk && p.fate n Syscall.getFileAttributes &&
        (repaired p w.attrs r.ok1 r.compression.ok r.sparse.ok false !=
          INVALID_FILE_ATTRIBUTES) && p.fate m Syscall.setFileAttributes)) := by
  have hread : (model p).getFileAttributes w = (w.attrs, w.tick) := by
    simp [model, hg]
  unfold fixFileAttributes
  simp only [hread, hv, ne_eq, not_false_eq_true, if_true]
  generalize hf1 : clearAll (model p) w.attrs
    { world := w.tick, trace := [Event.getFileAttributes Site.entry w.attrs],
      success := true } = f1
  have ht1 : f1.trace = [Event.getFileAttributes Site.entry w.attrs,
      Event.setFileAttributes Site.clearAll
        (if hasFlag w.attrs FILE_ATTRIBUTE_ARCHIVE then FILE_ATTRIBUTE_ARCHIVE else 0)
        f1.success] ∧
      f1.world.attrs = (if f1.success then written p w.attrs
        (if hasFlag w.attrs FILE_ATTRIBUTE_ARCHIVE then FILE_ATTRIBUTE_ARCHIVE else 0)
        else w.attrs) ∧
      f1.success = p.fate (w.clock + 1) Syscall.setFileAttributes := by
    subst hf1
    unfold clearAll
    cases hx : p.fate (w.clock + 1) Syscall.setFileAttributes <;>
      simp [model, File.tick, hx]
  obtain ⟨ht1, ha1, hs1⟩ := ht1
  -- step 2
  have h2 : ∃ s : StepRun,
      (s = StepRun.skipped ↔ hasFlag w.attrs FILE_ATTRIBUTE_COMPRESSED = false) ∧
      (disableCompression (model p) w.attrs f1).trace =
        f1.trace ++ s.events Site.compression Fsctl.FSCTL_SET_COMPRESSION ∧
      (disableCompression (model p) w.attrs f1).success = (f1.success && s.ok) ∧
      (disableCompression (model p) w.attrs f1).world.attrs =
        (if hasFlag w.attrs FILE_ATTRIBUTE_COMPRESSED && s.ok then
          without f1.world.attrs FILE_ATTRIBUTE_COMPRESSED else f1.world.attrs) ∧
      ∃ n m, s.ok = (!hasFlag w.attrs FILE_ATTRIBUTE_COMPRESSED ||
        (p.fate n Syscall.createFile && p.fate m Syscall.setCompression)) := by
    unfold disableCompression
    cases hc : hasFlag w.attrs FILE_ATTRIBUTE_COMPRESSED with
    | false =>
      exact ⟨StepRun.skipped, by simp, by simp [StepRun.events], by simp [StepRun.ok],
        by simp, 0, 0, by simp [StepRun.ok]⟩
    | true =>
      obtain ⟨s, hs1, hs2, hs3, hs4, n, m, hs5⟩ :=
        model_deviceControl_run p Site.compression Fsctl.FSCTL_SET_COMPRESSION f1
      exact ⟨s, by simp [hs1], by simpa using hs2, by simpa using hs3,
        by simpa [Fsctl.flag] using hs4, n, m, by simpa [Fsctl.kind] using hs5⟩
  obtain ⟨sc, hc1, hc2, hc3, hc4, hc5⟩ := h2
  generalize disableCompression (model p) w.attrs f1 = f2 at hc2 hc3 hc4 ⊢
  -- step 3
  have h3 : ∃ s : StepRun,
      (s = StepRun.skipped ↔ hasFlag w.attrs FILE_ATTRIBUTE_SPARSE_FILE = false) ∧
      (disableSparseness (model p) w.attrs f2).trace =
        f2.trace ++ s.events Site.sparse Fsctl.FSCTL_SET_SPARSE ∧
      (disableSparseness (model p) w.attrs f2).success = (f2.success && s.ok) ∧
      (disableSparseness (model p) w.attrs f2).world.attrs =
        (if hasFlag w.attrs FILE_ATTRIBUTE_SPARSE_FILE && s.ok then
          without f2.world.attrs FILE_ATTRIBUTE_SPARSE_FILE else f2.world.attrs) ∧
      ∃ n m, s.ok = (!hasFlag w.attrs FILE_ATTRIBUTE_SPARSE_FILE ||
        (p.fate n Syscall.createFile && p.fate m Syscall.setSparse)) := by
    unfold disableSparseness
    cases hc : hasFlag w.attrs FILE_ATTRIBUTE_SPARSE_FILE with
    | false =>
      exact ⟨StepRun.skipped, by simp, by simp [StepRun.events], by simp [StepRun.ok],
        by simp, 0, 0, by simp [StepRun.ok]⟩
    | true =>
      obtain ⟨s, hs1, hs2, hs3, hs4, n, m, hs5⟩ :=
        model_deviceControl_run p Site.sparse Fsctl.FSCTL_SET_SPARSE f2
      exact ⟨s, by simp [hs1], by simpa using hs2, by simpa using hs3,
        by simpa [Fsctl.flag] using hs4, n, m, by simpa [Fsctl.kind] using hs5⟩
  obtain ⟨ss, hz1, hz2, hz3, hz4, hz5⟩ := h3
  generalize disableSparseness (model p) w.attrs f2 = f3 at hz2 hz3 hz4 ⊢
  obtain ⟨b, hb1, hb2, hb3, hb4, hb5, n, m, hb6⟩ := model_lastDitch_run p f3
  have ha3 : f3.world.attrs = repaired p w.attrs f1.success sc.ok ss.ok false := by
    rw [hz4, hc4, ha1]
    simp [repaired]
  refine ⟨⟨w.attrs, f1.success, sc, ss, b⟩, ⟨hv, hc1, hz1, ?_, hb2⟩, rfl, ?_, ?_, ?_,
    ⟨_, hs1⟩, hc5, hz5, n, m, ?_⟩
  · rw [hb1, hz3, hc3]
    simp [Run.stepsOk]
  · rw [hb3, hz2, hc2, ht1]
    simp [Run.events]
  · rw [hb4]
    simp only [Run.success, Run.stepsOk]
    cases b <;> simp [hz3, hc3]
  · rw [hb5, ha3]
    simp only [Run.finalAttrs, repaired]
    cases b.wroteOk <;> simp
  · rw [hb6, ha3, hz3, hc3]
    simp [Run.stepsOk]

theorem model_readable (p : Platform) (w : File)
    (h : (fixFileAttributes (model p) w).success = true) :
    p.fate w.clock Syscall.getFileAttributes = true ∧ w.attrs ≠ INVALID_FILE_ATTRIBUTES := by
  by_contra hc
  have hr : ((model p).getFileAttributes w).1 = INVALID_FILE_ATTRIBUTES := by
    simp only [model]
    by_cases hg : p.fate w.clock Syscall.getFileAttributes = true
    · have : w.attrs = INVALID_FILE_ATTRIBUTES := by
        by_contra hv
        exact hc ⟨hg, hv⟩
      simp [this]
    · simp [hg]
  have : (fixFileAttributes (model p) w).success = false := by
    simp [fixFileAttributes, hr]
  rw [this] at h
  exact Bool.noConfusion h

theorem run_requestFailed (r : Run) :
    requestFailed r.events = !(r.compression.ok && r.sparse.ok) := by
  rcases r with ⟨attrs, ok1, c, s, b⟩
  simp only [Run.events, requestFailed]
  generalize (if hasFlag attrs FILE_ATTRIBUTE_ARCHIVE = true then FILE_ATTRIBUTE_ARCHIVE
    else 0) = v
  have hc : (c.events Site.compression Fsctl.FSCTL_SET_COMPRESSION).any
      (fun e => (e.site == Site.compression || e.site == Site.sparse) && e.failed) = !c.ok := by
    rcases c with _ | _ | ⟨_, _ | _⟩ <;>
      simp [StepRun.events, StepRun.ok, Event.site, Event.failed]
  have hs : (s.events Site.sparse Fsctl.FSCTL_SET_SPARSE).any
      (fun e => (e.site == Site.compression || e.site == Site.sparse) && e.failed) = !s.ok := by
    rcases s with _ | _ | ⟨_, _ | _⟩ <;>
      simp [StepRun.events, StepRun.ok, Event.site, Event.failed]
  have hb : b.events.any
      (fun e => (e.site == Site.compression || e.site == Site.sparse) && e.failed) = false := by
    cases b <;> simp [FallbackRun.events, Event.site]
  simp only [List.any_append, hc, hs, hb]
  cases c.ok <;> cases s.ok <;> simp [Event.site]

/-- C4 fails: a compressed file that cannot be opened keeps COMPRESSED, and
`fixFileAttributes` returns true through the fallback. -/
theorem fixFileAttributes_keeps_compressed :
    hasFlag (File.attrs ⟨0x800, 0⟩) FILE_ATTRIBUTE_COMPRESSED = true ∧
    (fixFileAttributes (model ⟨documentedSettable, fun _ k => k != Syscall.createFile⟩)
      ⟨0x800, 0⟩).success = true ∧
    hasFlag (fixFileAttributes (model ⟨documentedSettable, fun _ k => k != Syscall.createFile⟩)
      ⟨0x800, 0⟩).world.attrs FILE_ATTRIBUTE_COMPRESSED = true := by
  decide

/-- C4, amended: for a file that had COMPRESSED or SPARSE_FILE set, if
`fixFileAttributes` returns true and no open or control request of steps 2-3
failed, the bitmask afterwards has neither COMPRESSED nor SPARSE_FILE. -/
theorem fixFileAttributes_clears_flags (p : Platform) (w : File)
    (_hflag : hasFlag w.attrs FILE_ATTRIBUTE_COMPRESSED = true ∨
      hasFlag w.attrs FILE_ATTRIBUTE_SPARSE_FILE = true)
    (hret : (fixFileAttributes (model p) w).success = true)
    (hreq : requestFailed (fixFileAttributes (model p) w).trace = false) :
    hasFlag (fixFileAttributes (model p) w).world.attrs FILE_ATTRIBUTE_COMPRESSED = false ∧
    hasFlag (fixFileAttributes (model p) w).world.attrs FILE_ATTRIBUTE_SPARSE_FILE = false := by
  obtain ⟨hg, hv⟩ := model_readable p w hret
  obtain ⟨r, hc, ha, ht, hs, hfin, _⟩ := model_run p w hg hv
  rw [ht, run_requestFailed] at hreq
  rw [hfin]
  have hok : r.compression.ok = true ∧ r.sparse.ok = true := by
    cases h1 : r.compression.ok <;> cases h2 : r.sparse.ok <;> simp [h1, h2] at hreq ⊢
  simp only [Run.finalAttrs, hok.1, hok.2, repaired, hasFlag_archive, hasFlag_compressed,
    hasFlag_sparse]
  cases r.ok1 <;> cases r.fallback.wroteOk <;> cases hA : r.attrs.testBit 5 <;>
    cases hC : r.attrs.testBit 11 <;> cases hS : r.attrs.testBit 9 <;>
    simp [testBit_written, testBit_without, hA, hC, hS, testBit_archive, testBit_compressed,
      testBit_sparse, Nat.testBit_lor]

/-- C4, amended, at a compressed, sparse, hidden file when every call succeeds. -/
theorem fixFileAttributes_clears_flags_witness :
    hasFlag (File.attrs ⟨0xA02, 0⟩) FILE_ATTRIBUTE_COMPRESSED = true ∧
    (fixFileAttributes (model ⟨documentedSettable, allSucceed⟩) ⟨0xA02, 0⟩).success = true ∧
    hasFlag (fixFileAttributes (model ⟨documentedSettable, allSucceed⟩) ⟨0xA02, 0⟩).world.attrs
      FILE_ATTRIBUTE_COMPRESSED = false ∧
    hasFlag (fixFileAttributes (model ⟨documentedSettable, allSucceed⟩) ⟨0xA02, 0⟩).world.attrs
      FILE_ATTRIBUTE_SPARSE_FILE = false :=
  ⟨by decide, by decide,
    fixFileAttributes_clears_flags ⟨documentedSettable, allSucceed⟩ ⟨0xA02, 0⟩
      (Or.inl (by decide)) (by decide) (by decide)⟩

theorem run_fallbackRan (r : Run) :
    FallbackRan r.events ↔ r.fallback ≠ FallbackRun.notRun := by
  rcases r with ⟨attrs, ok1, c, s, b⟩
  simp only [Run.events, FallbackRan]
  cases c <;> cases s <;> cases b <;> simp [StepRun.events, FallbackRun.events]

/-- C3 fails: a hidden reparse point without ARCHIVE.  Every call succeeds,
`fixFileAttributes` returns true, and `checkFileAttributes` still reports the
file, because REPARSE_POINT is not a flag `SetFileAttributes` changes. -/
theorem fixFileAttributes_true_check_true :
    (fixFileAttributes (model ⟨documentedSettable, allSucceed⟩)
      ⟨FILE_ATTRIBUTE_REPARSE_POINT ||| FILE_ATTRIBUTE_HIDDEN, 0⟩).success = true ∧
    (checkFileAttributes (model ⟨documentedSettable, allSucceed⟩)
      (fixFileAttributes (model ⟨documentedSettable, allSucceed⟩)
        ⟨FILE_ATTRIBUTE_REPARSE_POINT ||| FILE_ATTRIBUTE_HIDDEN, 0⟩).world).success = true := by
  decide

/-- The repaired bitmask is not reported when the fallback wrote, or step 1
succeeded on a bitmask with ARCHIVE, or steps 1-3 succeeded on a bitmask whose
flags can all be cleared. -/
theorem repaired_not_abnormal (p : Platform) (a : Nat) (ok1 okC okS okF : Bool)
    (hset : p.settable.testBit 5 = true)
    (hcase : okF = true ∨ (ok1 = true ∧ a.testBit 5 = true) ∨
      (ok1 = true ∧ okC = true ∧ okS = true ∧
        Within a (p.settable ||| FILE_ATTRIBUTE_DIRECTORY ||| FILE_ATTRIBUTE_COMPRESSED |||
          FILE_ATTRIBUTE_SPARSE_FILE))) :
    abnormal (repaired p a ok1 okC okS okF) = false := by
  rw [← Bool.not_eq_true, abnormal_iff]
  rintro ⟨hnA, _, i, _, hbit, hout⟩
  rw [archive_eq, within_two_pow] at hnA
  rw [Nat.testBit_lor, Bool.or_eq_false_iff] at hout
  have hw : Within a (p.settable ||| FILE_ATTRIBUTE_DIRECTORY |||
      FILE_ATTRIBUTE_COMPRESSED ||| FILE_ATTRIBUTE_SPARSE_FILE) →
      a.testBit i = true → p.settable.testBit i = false → (11 = i ∨ 9 = i) := by
    intro hin hai hmi
    have := hin i hai
    simp only [Nat.testBit_lor, hmi, hout.1, testBit_compressed, testBit_sparse,
      Bool.false_or, Bool.or_eq_true, decide_eq_true_eq] at this
    exact this
  have h5 : ¬ (5 = i) := by
    have := hout.2
    rw [testBit_archive] at this
    simpa using this
  simp only [repaired, hasFlag_archive, hasFlag_compressed, hasFlag_sparse] at hnA hbit
  rcases hcase with hF | ⟨h1, hA⟩ | ⟨h1, hC, hS, hin⟩
  · subst hF
    apply hnA
    simp [testBit_written, Nat.testBit_lor, testBit_archive, hset]
  · subst h1
    apply hnA
    cases okF <;> cases okC <;> cases okS <;> cases hC : a.testBit 11 <;>
      cases hS : a.testBit 9 <;>
      simp [testBit_written, testBit_without, Nat.testBit_lor, testBit_archive,
        testBit_compressed, testBit_sparse, hset, hA]
  · subst h1 hC hS
    have hw2 := hw hin
    cases okF <;> cases hA : a.testBit 5 <;> cases hC : a.testBit 11 <;>
      cases hS : a.testBit 9 <;>
      simp [testBit_written, testBit_without, Nat.testBit_lor, testBit_archive,
        testBit_compressed, testBit_sparse, hset, hA, hC, hS, h5] at hbit hnA
    all_goals
      have hai : a.testBit i = true := by tauto
      have hmi : p.settable.testBit i = false := by tauto
      rcases hw2 hai hmi with h | h <;> subst h <;> simp_all

/-- C3, amended: on a platform where `SetFileAttributes` is able to change
ARCHIVE, if `fixFileAttributes` returns true then `checkFileAttributes` right
afterwards returns false, provided the fallback ran, or ARCHIVE was set at
entry, or every flag set at entry is DIRECTORY, COMPRESSED, SPARSE_FILE or one
that `SetFileAttributes` is able to change. -/
theorem fixFileAttributes_then_check (p : Platform) (w : File)
    (hset : Within FILE_ATTRIBUTE_ARCHIVE p.settable)
    (hret : (fixFileAttributes (model p) w).success = true)
    (hcond : FallbackRan (fixFileAttributes (model p) w).trace ∨
      hasFlag w.attrs FILE_ATTRIBUTE_ARCHIVE = true ∨
      Within w.attrs (p.settable ||| FILE_ATTRIBUTE_DIRECTORY ||| FILE_ATTRIBUTE_COMPRESSED |||
        FILE_ATTRIBUTE_SPARSE_FILE)) :
    (checkFileAttributes (model p) (fixFileAttributes (model p) w).world).success = false := by
  obtain ⟨hg, hv⟩ := model_readable p w hret
  obtain ⟨r, hc, ha, ht, hs, hfin, _⟩ := model_run p w hg hv
  rw [← Bool.not_eq_true, checkFileAttributes_success]
  rintro ⟨hne, hab⟩
  have hab2 : abnormal (fixFileAttributes (model p) w).world.attrs = true := by
    generalize (fixFileAttributes (model p) w).world = w' at hne hab
    have hread : ((model p).getFileAttributes w').1 =
        if p.fate w'.clock Syscall.getFileAttributes = true then w'.attrs
        else INVALID_FILE_ATTRIBUTES := rfl
    rw [hread] at hne hab
    by_cases hf : p.fate w'.clock Syscall.getFileAttributes = true
    · simpa [hf] using hab
    · simp [hf] at hne
  rw [hfin] at hab2
  rw [ht, run_fallbackRan, ← ha] at hcond
  rw [hs] at hret
  obtain ⟨_, _, _, hc3, _⟩ := hc
  rw [archive_eq, within_two_pow] at hset
  have hno : abnormal (Run.finalAttrs p r) = false := by
    apply repaired_not_abnormal p _ _ _ _ _ hset
    rcases r with ⟨a, ok1, c, s, b⟩
    simp only [Run.success, Run.stepsOk, hasFlag_archive] at *
    rcases b with _ | _ | ⟨x, _ | _⟩
    · have h3 := hc3.1 rfl
      simp only [Bool.and_eq_true] at h3
      rcases hcond with h | h | h
      · exact absurd rfl h
      · exact Or.inr (Or.inl ⟨h3.1.1, h⟩)
      · exact Or.inr (Or.inr ⟨h3.1.1, h3.1.2, h3.2, h⟩)
    · simp at hret
    · simp at hret
    · exact Or.inl rfl
  rw [hno] at hab2
  exact Bool.noConfusion hab2

/-- C3, amended, at a compressed, sparse, hidden file when every call succeeds. -/
theorem fixFileAttributes_then_check_witness :
    (fixFileAttributes (model ⟨documentedSettable, allSucceed⟩) ⟨0xA02, 0⟩).success = true ∧
    (checkFileAttributes (model ⟨documentedSettable, allSucceed⟩)
      (fixFileAttributes (model ⟨documentedSettable, allSucceed⟩) ⟨0xA02, 0⟩).world).success =
        false :=
  ⟨by decide,
    fixFileAttributes_then_check ⟨documentedSettable, allSucceed⟩ ⟨0xA02, 0⟩
      ((within_iff_land _ _).2 (by decide)) (by decide)
      (Or.inr (Or.inr ((within_iff_land _ _).2 (by decide))))⟩

/-! ### The bits of the repaired bitmask -/

theorem testBit_repaired_archive (p : Platform) (a : Nat) (ok1 okC okS okF : Bool) :
    (repaired p a ok1 okC okS okF).testBit 5 = (a.testBit 5 || (okF && p.settable.testBit 5)) := by
  simp only [repaired, hasFlag_archive, hasFlag_compressed, hasFlag_sparse]
  cases ok1 <;> cases okC <;> cases okS <;> cases okF <;> cases hA : a.testBit 5 <;>
    cases hC : a.testBit 11 <;> cases hS : a.testBit 9 <;>
    simp [testBit_written, testBit_without, Nat.testBit_lor, testBit_archive,
      testBit_compressed, testBit_sparse, hA]

theorem testBit_repaired_compressed (p : Platform) (a : Nat) (ok1 okC okS okF : Bool) :
    (repaired p a ok1 okC okS okF).testBit 11 =
      (a.testBit 11 && !okC && !(ok1 && p.settable.testBit 11)) := by
  simp only [repaired, hasFlag_archive, hasFlag_compressed, hasFlag_sparse]
  cases ok1 <;> cases okC <;> cases okS <;> cases okF <;> cases hA : a.testBit 5 <;>
    cases hC : a.testBit 11 <;> cases hS : a.testBit 9 <;>
    simp [testBit_written, testBit_without, Nat.testBit_lor, testBit_archive,
      testBit_compressed, testBit_sparse, hC]

theorem testBit_repaired_sparse (p : Platform) (a : Nat) (ok1 okC okS okF : Bool) :
    (repaired p a ok1 okC okS okF).testBit 9 =
      (a.testBit 9 && !okS && !(ok1 && p.settable.testBit 9)) := by
  simp only [repaired, hasFlag_archive, hasFlag_compressed, hasFlag_sparse]
  cases ok1 <;> cases okC <;> cases okS <;> cases okF <;> cases hA : a.testBit 5 <;>
    cases hC : a.testBit 11 <;> cases hS : a.testBit 9 <;>
    simp [testBit_written, testBit_without, Nat.testBit_lor, testBit_archive,
      testBit_compressed, testBit_sparse, hS]

theorem testBit_repaired_other (p : Platform) (a : Nat) (ok1 okC okS okF : Bool) (i : Nat)
    (h5 : 5 ≠ i) (h11 : 11 ≠ i) (h9 : 9 ≠ i) :
    (repaired p a ok1 okC okS okF).testBit i =
      (a.testBit i && !(ok1 && p.settable.testBit i)) := by
  simp only [repaired, hasFlag_archive, hasFlag_compressed, hasFlag_sparse]
  cases ok1 <;> cases okC <;> cases okS <;> cases okF <;> cases hA : a.testBit 5 <;>
    cases hC : a.testBit 11 <;> cases hS : a.testBit 9 <;>
    simp [testBit_written, testBit_without, Nat.testBit_lor, testBit_archive,
      testBit_compressed, testBit_sparse, h5, h11, h9] <;>
    cases a.testBit i <;> cases p.settable.testBit i <;> rfl

/-- Repairing a repaired bitmask changes nothing. -/
theorem steadyFix_idem (p : Platform) (a : Nat) : steadyFix p (steadyFix p a) = steadyFix p a := by
  unfold steadyFix
  generalize p.fate 0 Syscall.getFileAttributes = g
  generalize p.fate 0 Syscall.setFileAttributes = s
  generalize (p.fate 0 Syscall.createFile && p.fate 0 Syscall.setCompression) = oc
  generalize (p.fate 0 Syscall.createFile && p.fate 0 Syscall.setSparse) = oz
  simp only
  cases g with
  | false => simp
  | true =>
    by_cases hv : a = INVALID_FILE_ATTRIBUTES
    · simp [hv]
    · have hv' : (a != INVALID_FILE_ATTRIBUTES) = true := by simpa using hv
      simp only [Bool.true_and, hv', if_true]
      generalize hf : (!(s && (!hasFlag a FILE_ATTRIBUTE_COMPRESSED || oc) &&
        (!hasFlag a FILE_ATTRIBUTE_SPARSE_FILE || oz)) &&
        (repaired p a s oc oz false != INVALID_FILE_ATTRIBUTES) && s) = f
      generalize ha' : repaired p a s oc oz f = a'
      by_cases hv2 : a' = INVALID_FILE_ATTRIBUTES
      · simp [hv2]
      · have hv2' : (a' != INVALID_FILE_ATTRIBUTES) = true := by simpa using hv2
        simp only [hv2', if_true]
        generalize hf2 : (!(s && (!hasFlag a' FILE_ATTRIBUTE_COMPRESSED || oc) &&
          (!hasFlag a' FILE_ATTRIBUTE_SPARSE_FILE || oz)) &&
          (repaired p a' s oc oz false != INVALID_FILE_ATTRIBUTES) && s) = f2
        -- the flags of the repaired bitmask
        have b5 : a'.testBit 5 = (a.testBit 5 || (f && p.settable.testBit 5)) := by
          rw [← ha', testBit_repaired_archive]
        have b11 : a'.testBit 11 = (a.testBit 11 && !oc && !(s && p.settable.testBit 11)) := by
          rw [← ha', testBit_repaired_compressed]
        have b9 : a'.testBit 9 = (a.testBit 9 && !oz && !(s && p.settable.testBit 9)) := by
          rw [← ha', testBit_repaired_sparse]
        -- a second fallback implies a first one
        have hff : f2 = true → f = true := by
          intro h2
          rw [← hf2] at h2
          simp only [hasFlag_compressed, hasFlag_sparse, b11, b9] at h2
          by_cases hv1 : repaired p a s oc oz false = INVALID_FILE_ATTRIBUTES
          · exfalso
            have hfalse : f = false := by
              rw [← hf]
              simp [hv1]
            rw [hfalse] at ha'
            exact hv2 (ha' ▸ hv1)
          · have hv1' : (repaired p a s oc oz false != INVALID_FILE_ATTRIBUTES) = true := by
              simpa using hv1
            rw [← hf, hv1']
            simp only [hasFlag_compressed, hasFlag_sparse]
            revert h2
            cases s <;> cases oc <;> cases oz <;> cases a.testBit 11 <;> cases a.testBit 9 <;>
              simp
        apply Nat.eq_of_testBit_eq
        intro i
        by_cases h5 : 5 = i
        · subst h5
          rw [testBit_repaired_archive, b5]
          cases hf2v : f2
          · simp
          · rw [hff hf2v]
            cases a.testBit 5 <;> cases p.settable.testBit 5 <;> rfl
        · by_cases h11 : 11 = i
          · subst h11
            rw [testBit_repaired_compressed, b11]
            cases a.testBit 11 <;> cases oc <;> cases s <;> cases p.settable.testBit 11 <;> rfl
          · by_cases h9 : 9 = i
            · subst h9
              rw [testBit_repaired_sparse, b9]
              cases a.testBit 9 <;> cases oz <;> cases s <;> cases p.settable.testBit 9 <;> rfl
            · rw [testBit_repaired_other p a' s oc oz f2 i h5 h11 h9, ← ha',
                testBit_repaired_other p a s oc oz f i h5 h11 h9]
              cases a.testBit i <;> cases s <;> cases p.settable.testBit i <;> rfl

theorem repaired_skipped (p : Platform) (a : Nat) (ok1 okC okS okF : Bool) :
    repaired p a ok1 (!hasFlag a FILE_ATTRIBUTE_COMPRESSED || okC)
      (!hasFlag a FILE_ATTRIBUTE_SPARSE_FILE || okS) okF = repaired p a ok1 okC okS okF := by
  unfold repaired
  cases hasFlag a FILE_ATTRIBUTE_COMPRESSED <;> cases hasFlag a FILE_ATTRIBUTE_SPARSE_FILE <;>
    simp

/-- On a steady platform the bitmask after a call is `steadyFix` of the bitmask
before. -/
theorem model_steady (p : Platform) (hp : Steady p) (w : File) :
    (fixFileAttributes (model p) w).world.attrs = steadyFix p w.attrs := by
  by_cases hr : p.fate w.clock Syscall.getFileAttributes = true ∧
      w.attrs ≠ INVALID_FILE_ATTRIBUTES
  · obtain ⟨hg, hv⟩ := hr
    obtain ⟨r, _, ha, _, _, hfin, ⟨n1, h1⟩, ⟨n2, m2, h2⟩, ⟨n3, m3, h3⟩, ⟨n4, m4, h4⟩⟩ :=
      model_run p w hg hv
    rw [hp] at hg h1 h2 h3 h4
    rw [hp m2] at h2
    rw [hp m3] at h3
    rw [hp m4] at h4
    rw [hfin]
    unfold steadyFix Run.finalAttrs
    have hv' : (w.attrs != INVALID_FILE_ATTRIBUTES) = true := by simpa using hv
    simp only [hg, hv', Bool.true_and, if_true]
    rw [h4, Run.stepsOk, h2, h3, h1, ha, hg, repaired_skipped, repaired_skipped]
    simp
  · have hinv : ((model p).getFileAttributes w).1 = INVALID_FILE_ATTRIBUTES := by
      simp only [model]
      by_cases hg : p.fate w.clock Syscall.getFileAttributes = true
      · have : w.attrs = INVALID_FILE_ATTRIBUTES := by
          by_contra hv
          exact hr ⟨hg, hv⟩
        simp [this]
      · simp [hg]
    have hw : (fixFileAttributes (model p) w).world = ((model p).getFileAttributes w).2 := by
      simp [fixFileAttributes, hinv]
    rw [hw]
    unfold steadyFix
    by_cases hg : p.fate w.clock Syscall.getFileAttributes = true
    · have hva : w.attrs = INVALID_FILE_ATTRIBUTES := by
        by_contra hv
        exact hr ⟨hg, hv⟩
      simp [model, File.tick, hva]
    · rw [hp] at hg
      simp [model, File.tick, hg]

/-- C5 fails: a hidden file; the first call meets a `SetFileAttributes` that
fails twice and leaves HIDDEN, after which the call succeeds and a second call
clears HIDDEN. -/
theorem fixFileAttributes_not_idempotent :
    (fixFileAttributes (model ⟨documentedSettable, fun n _ => decide (n ≠ 1 ∧ n ≠ 3)⟩)
      ⟨FILE_ATTRIBUTE_HIDDEN, 0⟩).world.attrs = FILE_ATTRIBUTE_HIDDEN ∧
    (fixFileAttributes (model ⟨documentedSettable, fun n _ => decide (n ≠ 1 ∧ n ≠ 3)⟩)
      (fixFileAttributes (model ⟨documentedSettable, fun n _ => decide (n ≠ 1 ∧ n ≠ 3)⟩)
        ⟨FILE_ATTRIBUTE_HIDDEN, 0⟩).world).world.attrs = 0 := by
  decide

/-- C5, amended: on a platform where the outcome of a call depends on its kind
only (the same call fails or succeeds every time), the bitmask after two calls
of `fixFileAttributes` in succession is the bitmask after one. -/
theorem fixFileAttributes_idempotent (p : Platform) (hp : Steady p) (w : File) :
    (fixFileAttributes (model p) (fixFileAttributes (model p) w).world).world.attrs =
      (fixFileAttributes (model p) w).world.attrs := by
  rw [model_steady p hp, model_steady p hp, steadyFix_idem]

/-- C5, amended, at a compressed hidden file that cannot be opened. -/
theorem fixFileAttributes_idempotent_witness :
    (fixFileAttributes (model ⟨documentedSettable, fun _ k => k != Syscall.createFile⟩)
      (fixFileAttributes (model ⟨documentedSettable, fun _ k => k != Syscall.createFile⟩)
        ⟨0x802, 0⟩).world).world.attrs =
    (fixFileAttributes (model ⟨documentedSettable, fun _ k => k != Syscall.createFile⟩)
      ⟨0x802, 0⟩).world.attrs :=
  fixFileAttributes_idempotent ⟨documentedSettable, fun _ k => k != Syscall.createFile⟩
    (fun _ _ => rfl) ⟨0x802, 0⟩

/-- C9 at a compressed and sparse file that cannot be opened: the fallback
runs. -/
theorem fixFileAttributes_fallback_witness :
    FallbackRan (fixFileAttributes
      (model ⟨documentedSettable, fun _ k => k != Syscall.createFile⟩) ⟨0xA00, 0⟩).trace :=
  (fixFileAttributes_fallback
    (model ⟨documentedSettable, fun _ k => k != Syscall.createFile⟩) ⟨0xA00, 0⟩).1.2
    ⟨by decide, by decide⟩

end Win32

namespace Linux

/-- C7: when `lsattr` is not found the function returns false and starts no
process.  It returns true exactly when the tool is found, the process finishes
within the wait of 1000 ms and its exit code is 0; what the process printed
does not change the returned value. -/
theorem checkFileAttributes_lsattr {σ : Type} (os : OS σ) (path : String) (w : σ) :
    ((os.findExecutable "lsattr" w).1.isEmpty = true →
      (checkFileAttributes os path w).result = false ∧
      (checkFileAttributes os path w).trace.countP Event.isStart = 0) ∧
    ((checkFileAttributes os path w).result = true ↔
      (os.findExecutable "lsattr" w).1.isEmpty = false ∧
      (os.start (os.findExecutable "lsattr" w).1 [path]
        (os.findExecutable "lsattr" w).2).1.waitForFinished 1000 = true ∧
      (os.start (os.findExecutable "lsattr" w).1 [path]
        (os.findExecutable "lsattr" w).2).1.exitCode = 0) ∧
    (∀ out : String → String,
      (checkFileAttributes (os.relist out) path w).result =
        (checkFileAttributes os path w).result) := by
  have key : ∀ o : OS σ, ((checkFileAttributes o path w).result = true ↔
      (o.findExecutable "lsattr" w).1.isEmpty = false ∧
      (o.start (o.findExecutable "lsattr" w).1 [path]
        (o.findExecutable "lsattr" w).2).1.waitForFinished 1000 = true ∧
      (o.start (o.findExecutable "lsattr" w).1 [path]
        (o.findExecutable "lsattr" w).2).1.exitCode = 0) := by
    intro o
    unfold checkFileAttributes
    cases h1 : (o.findExecutable "lsattr" w).1.isEmpty
    · cases h2 : (o.start (o.findExecutable "lsattr" w).1 [path]
        (o.findExecutable "lsattr" w).2).1.waitForFinished 1000
      · simp [h1, h2]
      · by_cases h3 : (o.start (o.findExecutable "lsattr" w).1 [path]
          (o.findExecutable "lsattr" w).2).1.exitCode = 0
        · simp [h1, h2, h3]
        · simp [h1, h2, h3]
    · simp [h1]
  refine ⟨?_, key os, ?_⟩
  · intro h
    simp [checkFileAttributes, h, Event.isStart]
  · intro out
    rw [Bool.eq_iff_iff, key, key]
    rfl
/-- C7 without the tool (false, no process started) and with a tool that exits
with 0 (true). -/
theorem checkFileAttributes_lsattr_witness :
    ((checkFileAttributes noTool "/mods/plugin.esp" ()).result = false ∧
      (checkFileAttributes noTool "/mods/plugin.esp" ()).trace.countP Event.isStart = 0) ∧
    (checkFileAttributes (toolExits 0) "/mods/plugin.esp" ()).result = true :=
  ⟨(checkFileAttributes_lsattr noTool "/mods/plugin.esp" ()).1 rfl,
    (checkFileAttributes_lsattr (toolExits 0) "/mods/plugin.esp" ()).2.1.2 ⟨rfl, rfl, rfl⟩⟩

end Linux
